import Mathlib

/-!
Verification of the ConfigArc privileged-execution broker
(source: src-tauri/crates/configarc-core/src/privexec.rs) against its
natural-language specification.

The Rust source is shallowly embedded.  Pure functions become Lean
functions.  The persistent state files (policy.json, state/nonces.json,
state/commands.json, state/sessions.json, logs/audit.jsonl) become fields
of an explicit state record that is threaded through the pipeline; a
state-file write in the source becomes a functional update of the record
(state-store writes are modeled as succeeding, while the policy-file
atomic replacement, whose failure behaviour the spec describes in detail,
carries an explicit fault model).  The external capabilities of the
source, namely the CommandRunner trait, the SignatureVerifier registry,
the OS clock, filesystem path canonicalization and the SHA-256 digest,
become environment-supplied functions, mirroring the capability
abstraction of the source.  Timestamps (chrono DateTime values) are
modeled as integer unix seconds.  serde_json maps are modeled as
association lists so that an arbitrary map iteration order is
representable.  JSON numbers are restricted to integers, the only numeric
values produced by the payload types under verification.
-/

namespace ConfigArc

/-- JSON values as manipulated through serde_json::Value.  Object entries
are an association list, so a particular map iteration order is a
particular list order. -/
inductive Json where
  | null : Json
  | bool (b : Bool) : Json
  | num (n : Int) : Json
  | str (s : String) : Json
  | arr (items : List Json) : Json
  | obj (entries : List (String × Json)) : Json

mutual

/-- Structural boolean equality on JSON values, used to derive decidable
equality for the nested inductive. -/
def jsonBEq : Json → Json → Bool
  | .null, .null => true
  | .bool a, .bool b => a == b
  | .num a, .num b => a == b
  | .str a, .str b => a == b
  | .arr xs, .arr ys => jsonListBEq xs ys
  | .obj xs, .obj ys => jsonEntriesBEq xs ys
  | _, _ => false

def jsonListBEq : List Json → List Json → Bool
  | [], [] => true
  | x :: xs, y :: ys => jsonBEq x y && jsonListBEq xs ys
  | _, _ => false

def jsonEntriesBEq : List (String × Json) → List (String × Json) → Bool
  | [], [] => true
  | (ka, va) :: ta, (kb, vb) :: tb => ka == kb && jsonBEq va vb && jsonEntriesBEq ta tb
  | _, _ => false

end

mutual

theorem jsonBEq_refl : ∀ a, jsonBEq a a = true
  | .null => rfl
  | .bool b => by simp [jsonBEq]
  | .num n => by simp [jsonBEq]
  | .str s => by simp [jsonBEq]
  | .arr xs => by simpa [jsonBEq] using jsonListBEq_refl xs
  | .obj kvs => by simpa [jsonBEq] using jsonEntriesBEq_refl kvs

theorem jsonListBEq_refl : ∀ xs, jsonListBEq xs xs = true
  | [] => rfl
  | x :: xs => by simp [jsonListBEq, jsonBEq_refl x, jsonListBEq_refl xs]

theorem jsonEntriesBEq_refl : ∀ kvs, jsonEntriesBEq kvs kvs = true
  | [] => rfl
  | (k, v) :: kvs => by simp [jsonEntriesBEq, jsonBEq_refl v, jsonEntriesBEq_refl kvs]

end

mutual

theorem jsonBEq_sound : ∀ a b, jsonBEq a b = true → a = b
  | .null, .null, _ => rfl
  | .bool a, .bool b, h => by simp [jsonBEq] at h; simp [h]
  | .num a, .num b, h => by simp [jsonBEq] at h; simp [h]
  | .str a, .str b, h => by simp [jsonBEq] at h; simp [h]
  | .arr xs, .arr ys, h => by
      rw [jsonListBEq_sound xs ys (by simpa [jsonBEq] using h)]
  | .obj xs, .obj ys, h => by
      rw [jsonEntriesBEq_sound xs ys (by simpa [jsonBEq] using h)]
  | .null, .bool _, h => by simp [jsonBEq] at h
  | .null, .num _, h => by simp [jsonBEq] at h
  | .null, .str _, h => by simp [jsonBEq] at h
  | .null, .arr _, h => by simp [jsonBEq] at h
  | .null, .obj _, h => by simp [jsonBEq] at h
  | .bool _, .null, h => by simp [jsonBEq] at h
  | .bool _, .num _, h => by simp [jsonBEq] at h
  | .bool _, .str _, h => by simp [jsonBEq] at h
  | .bool _, .arr _, h => by simp [jsonBEq] at h
  | .bool _, .obj _, h => by simp [jsonBEq] at h
  | .num _, .null, h => by simp [jsonBEq] at h
  | .num _, .bool _, h => by simp [jsonBEq] at h
  | .num _, .str _, h => by simp [jsonBEq] at h
  | .num _, .arr _, h => by simp [jsonBEq] at h
  | .num _, .obj _, h => by simp [jsonBEq] at h
  | .str _, .null, h => by simp [jsonBEq] at h
  | .str _, .bool _, h => by simp [jsonBEq] at h
  | .str _, .num _, h => by simp [jsonBEq] at h
  | .str _, .arr _, h => by simp [jsonBEq] at h
  | .str _, .obj _, h => by simp [jsonBEq] at h
  | .arr _, .null, h => by simp [jsonBEq] at h
  | .arr _, .bool _, h => by simp [jsonBEq] at h
  | .arr _, .num _, h => by simp [jsonBEq] at h
  | .arr _, .str _, h => by simp [jsonBEq] at h
  | .arr _, .obj _, h => by simp [jsonBEq] at h
  | .obj _, .null, h => by simp [jsonBEq] at h
  | .obj _, .bool _, h => by simp [jsonBEq] at h
  | .obj _, .num _, h => by simp [jsonBEq] at h
  | .obj _, .str _, h => by simp [jsonBEq] at h
  | .obj _, .arr _, h => by simp [jsonBEq] at h

theorem jsonListBEq_sound : ∀ xs ys, jsonListBEq xs ys = true → xs = ys
  | [], [], _ => rfl
  | x :: xs, y :: ys, h => by
      have h₁ : jsonBEq x y = true ∧ jsonListBEq xs ys = true := by
        simpa [jsonListBEq] using h
      rw [jsonBEq_sound x y h₁.1, jsonListBEq_sound xs ys h₁.2]
  | [], _ :: _, h => by simp [jsonListBEq] at h
  | _ :: _, [], h => by simp [jsonListBEq] at h

theorem jsonEntriesBEq_sound : ∀ xs ys, jsonEntriesBEq xs ys = true → xs = ys
  | [], [], _ => rfl
  | (k₁, v₁) :: xs, (k₂, v₂) :: ys, h => by
      have h₁ : (k₁ = k₂ ∧ jsonBEq v₁ v₂ = true) ∧ jsonEntriesBEq xs ys = true := by
        simpa [jsonEntriesBEq] using h
      rw [h₁.1.1, jsonBEq_sound v₁ v₂ h₁.1.2, jsonEntriesBEq_sound xs ys h₁.2]
  | [], _ :: _, h => by simp [jsonEntriesBEq] at h
  | _ :: _, [], h => by simp [jsonEntriesBEq] at h

end

instance : DecidableEq Json := fun a b =>
  if h : jsonBEq a b = true then isTrue (jsonBEq_sound a b h)
  else isFalse (fun he => h (he ▸ jsonBEq_refl a))

/-! String helpers.  The model re-implements the handful of string
operations the source uses on explicit character lists, because the
built-in position-based String primitives do not reduce inside the
kernel; the re-implementations agree with the library versions on the
ASCII data the broker manipulates. -/

/-- ASCII lower-casing of one character, as Rust to_lowercase and
eq_ignore_ascii_case act on the ASCII strings used for algorithm and
command names. -/
def lowerChar (c : Char) : Char :=
  if 65 ≤ c.toNat ∧ c.toNat ≤ 90 then Char.ofNat (c.toNat + 32) else c

def lowerStr (s : String) : String := ⟨s.data.map lowerChar⟩

/-- Rust str::eq_ignore_ascii_case. -/
def eqIgnoreAsciiCase (a b : String) : Bool := lowerStr a == lowerStr b

/-- Rust str::trim (the broker only trims ASCII whitespace). -/
def trimStr (s : String) : String :=
  ⟨(s.data.dropWhile Char.isWhitespace).reverse.dropWhile Char.isWhitespace |>.reverse⟩

def isBlank (s : String) : Bool := trimStr s == ""

/-- Lexicographic strict order on character lists, the order String::cmp
induces on the ASCII keys being sorted (UTF-8 byte order and code-point
order agree). -/
def lexLtb : List Char → List Char → Bool
  | [], [] => false
  | [], _ :: _ => true
  | _ :: _, [] => false
  | a :: as₁, b :: bs₁ =>
      if a.toNat < b.toNat then true
      else if b.toNat < a.toNat then false
      else lexLtb as₁ bs₁

def strLtb (a b : String) : Bool := lexLtb a.data b.data

def strLeb (a b : String) : Bool := strLtb a b || a == b

/-- Order on object entries used by sort_json_value:
entries.sort_by(|(a, _), (b, _)| a.cmp(b)). -/
def keyLE (p q : String × Json) : Prop := strLeb p.1 q.1 = true

def keyLT (p q : String × Json) : Prop := strLtb p.1 q.1 = true

instance : DecidableRel keyLE := fun p q => by unfold keyLE; infer_instance

instance : DecidableRel keyLT := fun p q => by unfold keyLT; infer_instance

mutual

/-- sort_json_value: sort every object's entries by key at every depth;
arrays keep their order; scalars are unchanged.  The source sorts the
entry list first and then recursively normalizes each value while
reinserting; sorting and per-entry value normalization commute because
the keys are untouched, so the model normalizes entries first and then
sorts. -/
def sortJson : Json → Json
  | .null => .null
  | .bool b => .bool b
  | .num n => .num n
  | .str s => .str s
  | .arr xs => .arr (sortJsonList xs)
  | .obj kvs => .obj (List.insertionSort keyLE (sortJsonEntries kvs))

def sortJsonList : List Json → List Json
  | [] => []
  | x :: xs => sortJson x :: sortJsonList xs

def sortJsonEntries : List (String × Json) → List (String × Json)
  | [] => []
  | (k, v) :: kvs => (k, sortJson v) :: sortJsonEntries kvs

end

/-- JSON string escaping as serde_json emits it: backslash, double quote,
and the named control escapes, with a hexadecimal escape for the
remaining control characters. -/
def escapeJsonChar (c : Char) : List Char :=
  if c = '"' then ['\\', '"']
  else if c = '\\' then ['\\', '\\']
  else if c.toNat = 8 then ['\\', 'b']
  else if c.toNat = 12 then ['\\', 'f']
  else if c = '\n' then ['\\', 'n']
  else if c = '\r' then ['\\', 'r']
  else if c = '\t' then ['\\', 't']
  else if c.toNat < 32 then
    ['\\', 'u', '0', '0',
     (if c.toNat / 16 < 10 then Char.ofNat (48 + c.toNat / 16) else Char.ofNat (87 + c.toNat / 16)),
     (if c.toNat % 16 < 10 then Char.ofNat (48 + c.toNat % 16) else Char.ofNat (87 + c.toNat % 16))]
  else [c]

def renderJsonString (s : String) : String :=
  ⟨'"' :: (s.data.flatMap escapeJsonChar) ++ ['"']⟩

mutual

/-- Compact JSON serialization (serde_json::to_vec): no insignificant
whitespace, object entries and array items joined by commas. -/
def renderJson : Json → String
  | .null => "null"
  | .bool true => "true"
  | .bool false => "false"
  | .num n => toString n
  | .str s => renderJsonString s
  | .arr xs => "[" ++ renderJsonItems xs ++ "]"
  | .obj kvs => "\x7b" ++ renderJsonFields kvs ++ "\x7d"

def renderJsonItems : List Json → String
  | [] => ""
  | [x] => renderJson x
  | x :: y :: xs => renderJson x ++ "," ++ renderJsonItems (y :: xs)

def renderJsonFields : List (String × Json) → String
  | [] => ""
  | [(k, v)] => renderJsonString k ++ ":" ++ renderJson v
  | (k, v) :: kv :: kvs =>
      renderJsonString k ++ ":" ++ renderJson v ++ "," ++ renderJsonFields (kv :: kvs)

end

/-- canonical_json_bytes: normalize with sort_json_value, then serialize
compactly.  The byte sequence is represented by its UTF-8 string, whose
equality coincides with byte equality. -/
def canonicalJsonString (v : Json) : String :=
  renderJson (sortJson v)

/-! Properties of the key order used by the canonical serializer. -/

theorem char_eq_of_toNat_eq {a b : Char} (h : a.toNat = b.toNat) : a = b := by
  apply Char.eq_of_val_eq
  apply UInt32.eq_of_val_eq
  exact Fin.ext h

theorem string_eq_of_data_eq {a b : String} (h : a.data = b.data) : a = b := by
  cases a; cases b; subst h; rfl

theorem lexLtb_connex : ∀ l₁ l₂, lexLtb l₁ l₂ = false → lexLtb l₂ l₁ = false → l₁ = l₂
  | [], [], _, _ => rfl
  | [], _ :: _, h₁, _ => by simp [lexLtb] at h₁
  | _ :: _, [], _, h₂ => by simp [lexLtb] at h₂
  | a :: as₁, b :: bs₁, h₁, h₂ => by
      simp only [lexLtb] at h₁ h₂
      by_cases hab : a.toNat < b.toNat
      · simp [hab] at h₁
      · by_cases hba : b.toNat < a.toNat
        · simp [hba] at h₂
        · have hc : a = b := char_eq_of_toNat_eq (by omega)
          simp only [hab, hba, if_false] at h₁ h₂
          rw [hc, lexLtb_connex as₁ bs₁ h₁ h₂]

theorem lexLtb_asymm : ∀ l₁ l₂, lexLtb l₁ l₂ = true → lexLtb l₂ l₁ = true → False
  | [], [], h₁, _ => by simp [lexLtb] at h₁
  | [], _ :: _, _, h₂ => by simp [lexLtb] at h₂
  | _ :: _, [], h₁, _ => by simp [lexLtb] at h₁
  | a :: as₁, b :: bs₁, h₁, h₂ => by
      simp only [lexLtb] at h₁ h₂
      by_cases hab : a.toNat < b.toNat
      · have : ¬ b.toNat < a.toNat := by omega
        simp [this, hab] at h₂
      · by_cases hba : b.toNat < a.toNat
        · simp [hab, hba] at h₁
        · simp only [hab, hba, if_false] at h₁ h₂
          exact lexLtb_asymm as₁ bs₁ h₁ h₂

theorem lexLtb_trans :
    ∀ l₁ l₂ l₃, lexLtb l₁ l₂ = true → lexLtb l₂ l₃ = true → lexLtb l₁ l₃ = true
  | [], l₂, l₃, h₁, h₂ => by
      cases l₂ with
      | nil => simp [lexLtb] at h₁
      | cons b bs =>
        cases l₃ with
        | nil => simp [lexLtb] at h₂
        | cons c cs => simp [lexLtb]
  | _ :: _, [], _, h₁, _ => by simp [lexLtb] at h₁
  | _ :: _, _ :: _, [], _, h₂ => by simp [lexLtb] at h₂
  | a :: as₁, b :: bs₁, c :: cs₁, h₁, h₂ => by
      simp only [lexLtb] at h₁ h₂ ⊢
      by_cases hab : a.toNat < b.toNat
      · by_cases hbc : b.toNat < c.toNat
        · have : a.toNat < c.toNat := by omega
          simp [this]
        · by_cases hcb : c.toNat < b.toNat
          · simp [hbc, hcb] at h₂
          · have hbceq : b.toNat = c.toNat := by omega
            have : a.toNat < c.toNat := by omega
            simp [this]
      · by_cases hba : b.toNat < a.toNat
        · simp [hab, hba] at h₁
        · have habeq : a.toNat = b.toNat := by omega
          by_cases hbc : b.toNat < c.toNat
          · have : a.toNat < c.toNat := by omega
            simp [this]
          · by_cases hcb : c.toNat < b.toNat
            · simp [hbc, hcb] at h₂
            · have : ¬ a.toNat < c.toNat := by omega
              have h₄ : ¬ c.toNat < a.toNat := by omega
              simp only [hab, hba, if_false] at h₁
              simp only [hbc, hcb, if_false] at h₂
              simp [this, h₄, lexLtb_trans as₁ bs₁ cs₁ h₁ h₂]

theorem strLeb_total (a b : String) : strLeb a b = true ∨ strLeb b a = true := by
  by_cases h₁ : strLtb a b = true
  · exact Or.inl (by simp [strLeb, h₁])
  · by_cases h₂ : strLtb b a = true
    · exact Or.inr (by simp [strLeb, h₂])
    · have : a = b := by
        apply string_eq_of_data_eq
        exact lexLtb_connex a.data b.data
          (by simpa [strLtb] using h₁) (by simpa [strLtb] using h₂)
      subst this
      exact Or.inl (by simp [strLeb])

theorem strLeb_trans {a b c : String} (h₁ : strLeb a b = true) (h₂ : strLeb b c = true) :
    strLeb a c = true := by
  simp only [strLeb, Bool.or_eq_true, beq_iff_eq] at h₁ h₂ ⊢
  rcases h₁ with h₁ | rfl
  · rcases h₂ with h₂ | rfl
    · exact Or.inl (lexLtb_trans _ _ _ h₁ h₂)
    · exact Or.inl h₁
  · exact h₂

instance : IsTotal (String × Json) keyLE :=
  ⟨fun p q => strLeb_total p.1 q.1⟩

instance : IsTrans (String × Json) keyLE :=
  ⟨fun _ _ _ h₁ h₂ => strLeb_trans h₁ h₂⟩

instance : IsAntisymm (String × Json) keyLT :=
  ⟨fun p q h₁ h₂ => (lexLtb_asymm p.1.data q.1.data h₁ h₂).elim⟩

theorem sorted_keyLT_of_sorted_keyLE {l : List (String × Json)}
    (hs : List.Sorted keyLE l) (hn : (l.map Prod.fst).Nodup) : List.Sorted keyLT l := by
  have hne : List.Pairwise (fun p q : String × Json => p.1 ≠ q.1) l :=
    List.pairwise_map.mp hn
  have := hs.and hne
  refine this.imp ?_
  intro p q hpq
  rcases hpq with ⟨hle, hne'⟩
  have hle' := hle
  simp only [keyLE, strLeb, Bool.or_eq_true, beq_iff_eq] at hle'
  rcases hle' with h | h
  · exact h
  · exact absurd h hne'

/-- Association lists over distinct keys that agree as finite maps are
permutations of each other. -/
theorem perm_of_assoc_ext {β : Type} :
    ∀ (l₁ l₂ : List (String × β)),
      (l₁.map Prod.fst).Nodup → (l₂.map Prod.fst).Nodup →
      (∀ k, (∃ v, (k, v) ∈ l₁) ↔ (∃ v, (k, v) ∈ l₂)) →
      (∀ k v₁ v₂, (k, v₁) ∈ l₁ → (k, v₂) ∈ l₂ → v₁ = v₂) →
      l₁.Perm l₂
  | [], l₂, _, _, hkeys, _ => by
      cases l₂ with
      | nil => exact List.Perm.refl []
      | cons p t =>
        exfalso
        obtain ⟨v, hv⟩ := (hkeys p.1).mpr ⟨p.2, by simp⟩
        simp at hv
  | (k, v) :: t, l₂, h₁, h₂, hkeys, hvals => by
      obtain ⟨v', hv'⟩ := (hkeys k).mp ⟨v, List.mem_cons_self _ _⟩
      have hvv : v = v' := hvals k v v' (List.mem_cons_self _ _) hv'
      subst hvv
      obtain ⟨s, tl, rfl⟩ := List.append_of_mem hv'
      have hmid : (s ++ (k, v) :: tl).Perm ((k, v) :: (s ++ tl)) := List.perm_middle
      refine List.Perm.trans ?_ hmid.symm
      refine List.Perm.cons _ ?_
      have h₁c : (k :: t.map Prod.fst).Nodup := by simpa using h₁
      have h₁t : (t.map Prod.fst).Nodup := (List.nodup_cons.mp h₁c).2
      have hknott : k ∉ t.map Prod.fst := (List.nodup_cons.mp h₁c).1
      have h₂' : ((s ++ tl).map Prod.fst).Nodup := by
        have hsub : (s ++ tl).Sublist (s ++ (k, v) :: tl) :=
          List.Sublist.append_left (List.sublist_cons_self _ _) s
        exact (hsub.map Prod.fst).nodup h₂
      have hknotst : k ∉ (s ++ tl).map Prod.fst := by
        intro hmem
        have hmap : ((s ++ (k, v) :: tl).map Prod.fst) =
            s.map Prod.fst ++ k :: tl.map Prod.fst := by simp
        have h₂m := hmap ▸ h₂
        rw [List.nodup_append] at h₂m
        obtain ⟨hns, hnkt, hdisj⟩ := h₂m
        simp only [List.map_append, List.mem_append] at hmem
        rcases hmem with hmem | hmem
        · exact hdisj hmem (by simp)
        · exact (List.nodup_cons.mp hnkt).1 hmem
      refine perm_of_assoc_ext t (s ++ tl) h₁t h₂' ?_ ?_
      · intro k'
        by_cases hk : k' = k
        · subst hk
          constructor
          · rintro ⟨w, hw⟩
            exact absurd (by simpa using List.mem_map_of_mem Prod.fst hw) hknott
          · rintro ⟨w, hw⟩
            exact absurd (by simpa using List.mem_map_of_mem Prod.fst hw) hknotst
        · constructor
          · rintro ⟨w, hw⟩
            obtain ⟨w', hw'⟩ := (hkeys k').mp ⟨w, List.mem_cons_of_mem _ hw⟩
            simp only [List.mem_append, List.mem_cons] at hw'
            rcases hw' with hw' | hw' | hw'
            · exact ⟨w', by simp [hw']⟩
            · exact absurd (congrArg Prod.fst hw') (by simpa using hk)
            · exact ⟨w', by simp [hw']⟩
          · rintro ⟨w, hw⟩
            have hw₂ : (k', w) ∈ s ++ (k, v) :: tl := by
              simp only [List.mem_append, List.mem_cons] at hw ⊢
              tauto
            obtain ⟨w', hw'⟩ := (hkeys k').mpr ⟨w, hw₂⟩
            rcases List.mem_cons.mp hw' with hw' | hw'
            · exact absurd (congrArg Prod.fst hw') (by simpa using hk)
            · exact ⟨w', hw'⟩
      · intro k' w₁ w₂ hw₁ hw₂
        have hw₂' : (k', w₂) ∈ s ++ (k, v) :: tl := by
          simp only [List.mem_append, List.mem_cons] at hw₂ ⊢
          tauto
        exact hvals k' w₁ w₂ (List.mem_cons_of_mem _ hw₁) hw₂'

/-- Semantic equality of JSON values: scalars equal, arrays pointwise
equal in order, and objects equal as finite maps over duplicate-free
keys, in any entry order.  This is the sense in which two in-memory
values fed to canonical_json_bytes can differ only by map iteration
order. -/
inductive JsonEquiv : Json → Json → Prop
  | null : JsonEquiv .null .null
  | bool (b : Bool) : JsonEquiv (.bool b) (.bool b)
  | num (n : Int) : JsonEquiv (.num n) (.num n)
  | str (s : String) : JsonEquiv (.str s) (.str s)
  | arrNil : JsonEquiv (.arr []) (.arr [])
  | arrCons {x y : Json} {xs ys : List Json} :
      JsonEquiv x y → JsonEquiv (.arr xs) (.arr ys) →
      JsonEquiv (.arr (x :: xs)) (.arr (y :: ys))
  | obj (kvs₁ kvs₂ : List (String × Json))
      (h₁ : (kvs₁.map Prod.fst).Nodup) (h₂ : (kvs₂.map Prod.fst).Nodup)
      (hkeys : ∀ k, (∃ v, (k, v) ∈ kvs₁) ↔ (∃ v, (k, v) ∈ kvs₂))
      (hvals : ∀ k v₁ v₂, (k, v₁) ∈ kvs₁ → (k, v₂) ∈ kvs₂ → JsonEquiv v₁ v₂) :
      JsonEquiv (.obj kvs₁) (.obj kvs₂)

theorem sortJsonEntries_eq_map (l : List (String × Json)) :
    sortJsonEntries l = l.map (fun p => (p.1, sortJson p.2)) := by
  induction l with
  | nil => rfl
  | cons p t ih => cases p; simp [sortJsonEntries, ih]

theorem sortJsonEntries_keys (l : List (String × Json)) :
    (sortJsonEntries l).map Prod.fst = l.map Prod.fst := by
  rw [sortJsonEntries_eq_map, List.map_map]
  rfl

/-- Core determinism lemma: semantically equal values normalize to the
same canonical tree. -/
theorem sortJson_eq_of_equiv {a b : Json} (h : JsonEquiv a b) : sortJson a = sortJson b := by
  induction h with
  | null => rfl
  | bool b => rfl
  | num n => rfl
  | str s => rfl
  | arrNil => rfl
  | arrCons hx hxs ihx ihxs =>
      simp only [sortJson, sortJsonList] at ihxs ⊢
      simp only [Json.arr.injEq] at ihxs
      simp [ihx, ihxs]
  | obj kvs₁ kvs₂ h₁ h₂ hkeys hvals ih =>
      simp only [sortJson, Json.obj.injEq]
      have hm₁ : (sortJsonEntries kvs₁).map Prod.fst = kvs₁.map Prod.fst :=
        sortJsonEntries_keys kvs₁
      have hm₂ : (sortJsonEntries kvs₂).map Prod.fst = kvs₂.map Prod.fst :=
        sortJsonEntries_keys kvs₂
      have hmem₁ : ∀ k w, (k, w) ∈ sortJsonEntries kvs₁ ↔
          ∃ v, (k, v) ∈ kvs₁ ∧ sortJson v = w := by
        intro k w
        rw [sortJsonEntries_eq_map]
        constructor
        · intro hm
          obtain ⟨⟨k₀, v₀⟩, hmem, heq⟩ := List.mem_map.mp hm
          simp only [Prod.mk.injEq] at heq
          exact ⟨v₀, heq.1 ▸ hmem, heq.2⟩
        · rintro ⟨v₀, hmem, rfl⟩
          exact List.mem_map.mpr ⟨(k, v₀), hmem, rfl⟩
      have hmem₂ : ∀ k w, (k, w) ∈ sortJsonEntries kvs₂ ↔
          ∃ v, (k, v) ∈ kvs₂ ∧ sortJson v = w := by
        intro k w
        rw [sortJsonEntries_eq_map]
        constructor
        · intro hm
          obtain ⟨⟨k₀, v₀⟩, hmem, heq⟩ := List.mem_map.mp hm
          simp only [Prod.mk.injEq] at heq
          exact ⟨v₀, heq.1 ▸ hmem, heq.2⟩
        · rintro ⟨v₀, hmem, rfl⟩
          exact List.mem_map.mpr ⟨(k, v₀), hmem, rfl⟩
      have hperm : (sortJsonEntries kvs₁).Perm (sortJsonEntries kvs₂) := by
        refine perm_of_assoc_ext _ _ (hm₁ ▸ h₁) (hm₂ ▸ h₂) ?_ ?_
        · intro k
          constructor
          · rintro ⟨w, hw⟩
            obtain ⟨v₁, hv₁, rfl⟩ := (hmem₁ k w).mp hw
            obtain ⟨v₂, hv₂⟩ := (hkeys k).mp ⟨v₁, hv₁⟩
            exact ⟨sortJson v₂, (hmem₂ k _).mpr ⟨v₂, hv₂, rfl⟩⟩
          · rintro ⟨w, hw⟩
            obtain ⟨v₂, hv₂, rfl⟩ := (hmem₂ k w).mp hw
            obtain ⟨v₁, hv₁⟩ := (hkeys k).mpr ⟨v₂, hv₂⟩
            exact ⟨sortJson v₁, (hmem₁ k _).mpr ⟨v₁, hv₁, rfl⟩⟩
        · intro k w₁ w₂ hw₁ hw₂
          obtain ⟨v₁, hv₁, rfl⟩ := (hmem₁ k w₁).mp hw₁
          obtain ⟨v₂, hv₂, rfl⟩ := (hmem₂ k w₂).mp hw₂
          exact ih k v₁ v₂ hv₁ hv₂
      have hps₁ : (List.insertionSort keyLE (sortJsonEntries kvs₁)).Perm
          (List.insertionSort keyLE (sortJsonEntries kvs₂)) :=
        ((List.perm_insertionSort keyLE _).trans hperm).trans
          (List.perm_insertionSort keyLE _).symm
      have hs₁ : List.Sorted keyLT (List.insertionSort keyLE (sortJsonEntries kvs₁)) := by
        refine sorted_keyLT_of_sorted_keyLE (List.sorted_insertionSort keyLE _) ?_
        have : ((List.insertionSort keyLE (sortJsonEntries kvs₁)).map Prod.fst).Perm
            ((sortJsonEntries kvs₁).map Prod.fst) :=
          (List.perm_insertionSort keyLE _).map Prod.fst
        exact this.nodup_iff.mpr (hm₁ ▸ h₁)
      have hs₂ : List.Sorted keyLT (List.insertionSort keyLE (sortJsonEntries kvs₂)) := by
        refine sorted_keyLT_of_sorted_keyLE (List.sorted_insertionSort keyLE _) ?_
        have : ((List.insertionSort keyLE (sortJsonEntries kvs₂)).map Prod.fst).Perm
            ((sortJsonEntries kvs₂).map Prod.fst) :=
          (List.perm_insertionSort keyLE _).map Prod.fst
        exact this.nodup_iff.mpr (hm₂ ▸ h₂)
      exact List.eq_of_perm_of_sorted hps₁ hs₁ hs₂

theorem jsonEquiv_obj_of_perm {kvs₁ kvs₂ : List (String × Json)}
    (hperm : kvs₁.Perm kvs₂) (h₁ : (kvs₁.map Prod.fst).Nodup)
    (hvals : ∀ k v₁ v₂, (k, v₁) ∈ kvs₁ → (k, v₂) ∈ kvs₂ → JsonEquiv v₁ v₂) :
    JsonEquiv (.obj kvs₁) (.obj kvs₂) := by
  refine JsonEquiv.obj kvs₁ kvs₂ h₁ ((hperm.map Prod.fst).nodup_iff.mp h₁) ?_ hvals
  intro k
  constructor
  · rintro ⟨v, hv⟩
    exact ⟨v, hperm.mem_iff.mp hv⟩
  · rintro ⟨v, hv⟩
    exact ⟨v, hperm.mem_iff.mpr hv⟩

/-- C1: canonical_json_bytes is deterministic: any two in-memory values
that are semantically equal, that is, agree up to object map iteration
order (over duplicate-free keys) at every depth while arrays keep their
order, serialize to identical byte sequences, because every object's
entries are sorted lexicographically by key at every depth before the
compact serialization.  This covers the command-request and
policy-update payloads, whose params and publicKeys maps have
unspecified iteration order. -/
theorem C1_signing_bytes_deterministic (a b : Json) (h : JsonEquiv a b) :
    canonicalJsonString a = canonicalJsonString b := by
  unfold canonicalJsonString
  rw [sortJson_eq_of_equiv h]

def c1ParamsA : List (String × Json) :=
  [("path", .str "C:\\vhd\\game.vhd"), ("readOnly", .bool true)]

def c1ParamsB : List (String × Json) :=
  [("readOnly", .bool true), ("path", .str "C:\\vhd\\game.vhd")]

def c1PayloadA : Json :=
  .obj [("schemaVersion", .num 1), ("commandId", .str "cmd-1"), ("params", .obj c1ParamsA)]

def c1PayloadB : Json :=
  .obj [("commandId", .str "cmd-1"), ("params", .obj c1ParamsB), ("schemaVersion", .num 1)]

theorem c1_params_equiv : JsonEquiv (.obj c1ParamsA) (.obj c1ParamsB) := by
  refine jsonEquiv_obj_of_perm ?_ (by decide) ?_
  · unfold c1ParamsA c1ParamsB
    exact List.Perm.swap _ _ _
  · intro k v₁ v₂ h₁ h₂
    simp only [c1ParamsA, c1ParamsB, List.mem_cons, List.not_mem_nil, or_false,
      Prod.mk.injEq] at h₁ h₂
    rcases h₁ with ⟨rfl, rfl⟩ | ⟨rfl, rfl⟩
    · rcases h₂ with ⟨hk, rfl⟩ | ⟨hk, rfl⟩
      · exact absurd hk (by decide)
      · exact JsonEquiv.str _
    · rcases h₂ with ⟨hk, rfl⟩ | ⟨hk, rfl⟩
      · exact JsonEquiv.bool _
      · exact absurd hk (by decide)

theorem c1_payload_equiv : JsonEquiv c1PayloadA c1PayloadB := by
  unfold c1PayloadA c1PayloadB
  refine JsonEquiv.obj _ _ (by decide) (by decide) ?_ ?_
  · intro k
    constructor
    · rintro ⟨v, hv⟩
      simp only [List.mem_cons, List.not_mem_nil, or_false, Prod.mk.injEq] at hv
      rcases hv with ⟨rfl, rfl⟩ | ⟨rfl, rfl⟩ | ⟨rfl, rfl⟩
      · exact ⟨.num 1, by simp⟩
      · exact ⟨.str "cmd-1", by simp⟩
      · exact ⟨.obj c1ParamsB, by simp⟩
    · rintro ⟨v, hv⟩
      simp only [List.mem_cons, List.not_mem_nil, or_false, Prod.mk.injEq] at hv
      rcases hv with ⟨rfl, rfl⟩ | ⟨rfl, rfl⟩ | ⟨rfl, rfl⟩
      · exact ⟨.str "cmd-1", by simp⟩
      · exact ⟨.obj c1ParamsA, by simp⟩
      · exact ⟨.num 1, by simp⟩
  · intro k v₁ v₂ h₁ h₂
    simp only [List.mem_cons, List.not_mem_nil, or_false, Prod.mk.injEq] at h₁ h₂
    rcases h₁ with ⟨rfl, rfl⟩ | ⟨rfl, rfl⟩ | ⟨rfl, rfl⟩
    · rcases h₂ with ⟨hk, rfl⟩ | ⟨hk, rfl⟩ | ⟨hk, rfl⟩
      · exact absurd hk (by decide)
      · exact absurd hk (by decide)
      · exact JsonEquiv.num _
    · rcases h₂ with ⟨hk, rfl⟩ | ⟨hk, rfl⟩ | ⟨hk, rfl⟩
      · exact JsonEquiv.str _
      · exact absurd hk (by decide)
      · exact absurd hk (by decide)
    · rcases h₂ with ⟨hk, rfl⟩ | ⟨hk, rfl⟩ | ⟨hk, rfl⟩
      · exact absurd hk (by decide)
      · exact c1_params_equiv
      · exact absurd hk (by decide)

/-- Witness for C1: a concrete command-request payload whose params map
is presented in two iteration orders satisfies the hypothesis and yields
byte-identical canonical serializations. -/
theorem C1_signing_bytes_deterministic_witness :
    JsonEquiv c1PayloadA c1PayloadB ∧
      canonicalJsonString c1PayloadA = canonicalJsonString c1PayloadB :=
  ⟨c1_payload_equiv, C1_signing_bytes_deterministic _ _ c1_payload_equiv⟩

/-! Data model of the broker (spec section 3), translated field by field
from the serde structures of the source. -/

/-- The closed error taxonomy (PrivExecErrorCode). -/
inductive PrivExecErrorCode where
  | ok
  | invalidSchema
  | policyNotFound
  | policyInvalid
  | policyDeny
  | commandDisabled
  | unsupportedSignatureAlgorithm
  | invalidSignature
  | deviceIdMismatch
  | requestExpired
  | requestNotYetValid
  | nonceReplay
  | commandIdConflict
  | sessionRequired
  | sessionNotFound
  | sessionExpired
  | invalidParameter
  | pathNotFound
  | pathNotAllowed
  | commandExecutionFailed
  | internalError
  | policyUpdateInvalidSignature
  | policyUpdateVersionRejected
  | policyUpdateRollback
deriving DecidableEq

namespace PrivExecErrorCode

/-- Stable string identifiers (PrivExecErrorCode::as_str). -/
def asStr : PrivExecErrorCode → String
  | .ok => "OK"
  | .invalidSchema => "INVALID_SCHEMA"
  | .policyNotFound => "POLICY_NOT_FOUND"
  | .policyInvalid => "POLICY_INVALID"
  | .policyDeny => "POLICY_DENY"
  | .commandDisabled => "COMMAND_DISABLED"
  | .unsupportedSignatureAlgorithm => "UNSUPPORTED_SIGNATURE_ALGORITHM"
  | .invalidSignature => "INVALID_SIGNATURE"
  | .deviceIdMismatch => "DEVICE_ID_MISMATCH"
  | .requestExpired => "REQUEST_EXPIRED"
  | .requestNotYetValid => "REQUEST_NOT_YET_VALID"
  | .nonceReplay => "NONCE_REPLAY"
  | .commandIdConflict => "COMMAND_ID_CONFLICT"
  | .sessionRequired => "SESSION_REQUIRED"
  | .sessionNotFound => "SESSION_NOT_FOUND"
  | .sessionExpired => "SESSION_EXPIRED"
  | .invalidParameter => "INVALID_PARAMETER"
  | .pathNotFound => "PATH_NOT_FOUND"
  | .pathNotAllowed => "PATH_NOT_ALLOWED"
  | .commandExecutionFailed => "COMMAND_EXECUTION_FAILED"
  | .internalError => "INTERNAL_ERROR"
  | .policyUpdateInvalidSignature => "POLICY_UPDATE_INVALID_SIGNATURE"
  | .policyUpdateVersionRejected => "POLICY_UPDATE_VERSION_REJECTED"
  | .policyUpdateRollback => "POLICY_UPDATE_ROLLBACK"

/-- Human-readable messages (PrivExecErrorCode::message). -/
def message : PrivExecErrorCode → String
  | .ok => "Success"
  | .invalidSchema => "Invalid request schema"
  | .policyNotFound => "Policy not found"
  | .policyInvalid => "Policy validation failed"
  | .policyDeny => "Command denied by policy"
  | .commandDisabled => "Command is disabled"
  | .unsupportedSignatureAlgorithm => "Unsupported signature algorithm"
  | .invalidSignature => "Signature verification failed"
  | .deviceIdMismatch => "Device binding mismatch"
  | .requestExpired => "Request expired"
  | .requestNotYetValid => "Request is not yet valid"
  | .nonceReplay => "Replay nonce detected"
  | .commandIdConflict => "Command ID conflict"
  | .sessionRequired => "Command requires a valid session"
  | .sessionNotFound => "Session not found"
  | .sessionExpired => "Session expired"
  | .invalidParameter => "Invalid command parameter"
  | .pathNotFound => "Path not found"
  | .pathNotAllowed => "Path not allowed by policy"
  | .commandExecutionFailed => "Command execution failed"
  | .internalError => "Internal execution error"
  | .policyUpdateInvalidSignature => "Policy package signature verification failed"
  | .policyUpdateVersionRejected => "Policy package version rejected"
  | .policyUpdateRollback => "Policy update failed and rolled back"

end PrivExecErrorCode

/-! Association-list operations modelling HashMap and serde_json::Map
lookups by key; insertion replaces an existing binding in place. -/

def alLookup {β : Type} (k : String) : List (String × β) → Option β
  | [] => none
  | (k₀, v) :: t => if k₀ = k then some v else alLookup k t

def alContains {β : Type} (k : String) (l : List (String × β)) : Bool :=
  (alLookup k l).isSome

def alInsert {β : Type} (k : String) (v : β) : List (String × β) → List (String × β)
  | [] => [(k, v)]
  | (k₀, v₀) :: t => if k₀ = k then (k, v) :: t else (k₀, v₀) :: alInsert k v t

def alRemove {β : Type} (k : String) (l : List (String × β)) : List (String × β) :=
  l.filter (fun p => p.1 != k)

instance {eps alpha : Type} [DecidableEq eps] [DecidableEq alpha] :
    DecidableEq (Except eps alpha) := fun x y =>
  match x, y with
  | .ok a, .ok b => if h : a = b then isTrue (by rw [h]) else isFalse (by simp [h])
  | .error a, .error b => if h : a = b then isTrue (by rw [h]) else isFalse (by simp [h])
  | .ok _, .error _ => isFalse (by simp)
  | .error _, .ok _ => isFalse (by simp)

/-- SignatureEnvelope. -/
structure SignatureEnvelope where
  algorithm : String
  keyId : String
  signature : String
deriving DecidableEq

/-- CommandRequestPayload; timestamps are unix seconds. -/
structure CommandRequestPayload where
  schemaVersion : Nat
  commandId : String
  nonce : String
  issuedAt : Int
  expiresAt : Int
  deviceId : String
  command : String
  params : List (String × Json)
deriving DecidableEq

/-- SignedCommandRequest. -/
structure SignedCommandRequest where
  payload : CommandRequestPayload
  signature : SignatureEnvelope
deriving DecidableEq

/-- CommandResponse. -/
structure CommandResponse where
  schemaVersion : Nat
  commandId : String
  ok : Bool
  code : String
  message : String
  executedAt : Int
  idempotentReplay : Bool
  result : Option Json
deriving DecidableEq

/-- PolicyDefaultAction. -/
inductive PolicyDefaultAction where
  | deny
  | allow
deriving DecidableEq

/-- PolicySecurity. -/
structure PolicySecurity where
  requireSignature : Bool
  signatureAlgorithm : String
  requireDeviceBinding : Bool
  requireNonce : Bool
  nonceTtlSeconds : Int
  maxClockSkewSeconds : Int
  sessionTtlSeconds : Int
  publicKeys : List (String × String)
deriving DecidableEq

/-- Serde defaults of PolicySecurity (all the restrictive choices). -/
def PolicySecurity.defaults : PolicySecurity :=
  { requireSignature := true
    signatureAlgorithm := "ed25519"
    requireDeviceBinding := true
    requireNonce := true
    nonceTtlSeconds := 120
    maxClockSkewSeconds := 30
    sessionTtlSeconds := 120
    publicKeys := [] }

/-- ParamRule, a tagged variant with four kinds.  The min and max bounds
of the int kind are named minVal and maxVal. -/
inductive ParamRule where
  | string (required : Bool) (default : Option String) (allowValues : List String)
      (fixedValue : Option String)
  | bool (required : Bool) (default : Option Bool) (fixedValue : Option Bool)
  | int (required : Bool) (default : Option Int) (minVal : Option Int) (maxVal : Option Int)
      (fixedValue : Option Int)
  | path (required : Bool) (default : Option String) (allowRoots : List String)
      (allowExtensions : List String) (fixedValue : Option String)
deriving DecidableEq

/-- PolicyCommand. -/
structure PolicyCommand where
  name : String
  enabled : Bool
  requiresSession : Bool
  riskLevel : Option String
  params : List (String × ParamRule)
deriving DecidableEq

/-- PrivExecPolicy. -/
structure PrivExecPolicy where
  schemaVersion : Nat
  policyName : String
  version : Nat
  defaultAction : PolicyDefaultAction
  security : PolicySecurity
  allowedCommands : List PolicyCommand
deriving DecidableEq

/-- PolicyUpdatePayload. -/
structure PolicyUpdatePayload where
  schemaVersion : Nat
  version : Nat
  issuedAt : Int
  policy : PrivExecPolicy
deriving DecidableEq

/-- SignedPolicyUpdateRequest. -/
structure SignedPolicyUpdateRequest where
  payload : PolicyUpdatePayload
  signature : SignatureEnvelope
deriving DecidableEq

/-- PolicyUpdateResponse. -/
structure PolicyUpdateResponse where
  ok : Bool
  code : String
  message : String
  version : Nat
  rolledBack : Bool
deriving DecidableEq

/-- AuditLogEntry. -/
structure AuditLogEntry where
  schemaVersion : Nat
  timestamp : Int
  commandId : String
  command : String
  ok : Bool
  code : String
  idempotentReplay : Bool
  requestHash : String
deriving DecidableEq

/-- SessionRecord. -/
structure SessionRecord where
  deviceId : String
  issuedAt : Int
  expiresAt : Int
  lastHeartbeatAt : Int
  ttlSeconds : Int
deriving DecidableEq

/-- StoredCommandRecord. -/
structure StoredCommandRecord where
  requestHash : String
  response : CommandResponse
deriving DecidableEq

/-- RunnerOutput. -/
structure RunnerOutput where
  statusCode : Int
  stdout : String
  stderr : String
deriving DecidableEq

/-- One invocation of the CommandRunner capability, recorded as an
effect of the pipeline: the script string, the environment map passed
alongside it, and whether the env-carrying entry point was used. -/
structure RunnerCall where
  script : String
  envVars : List (String × String)
  withEnv : Bool
deriving DecidableEq

/-- PrivExecConfig. -/
structure PrivExecConfig where
  deviceId : String
  bootstrapPublicKeys : List (String × String)
  policyReplaceFailAfterBackup : Bool
deriving DecidableEq

/-- Content of the policy file, abstracted to its parse result: a file
that is present but does not parse as a policy is represented by none.
The serde round trip between a policy value and its pretty-printed bytes
is injective, so byte equality of well-formed policy files coincides
with equality of these parse results. -/
abbrev PolicyDoc := Option PrivExecPolicy

/-- The three filesystem slots the atomic policy replacement touches:
policy.json, policy.json.tmp and policy.json.bak. -/
structure PolicyFs where
  main : Option PolicyDoc
  tmp : Option PolicyDoc
  bak : Option PolicyDoc
deriving DecidableEq

/-- Fault profile for the fallible filesystem operations of
replace_policy_atomically; every fs operation the source handles as
fallible gets a flag. -/
structure FsFaults where
  createDirFails : Bool
  writeTmpFails : Bool
  renameMainToBakFails : Bool
  renameTmpToMainFails : Bool
  renameBakToMainFails : Bool
deriving DecidableEq

/-- The persistent state owned by the core: the policy file slots and
the three whole-file JSON state stores, plus the append-only audit log.
State-store writes (write_json_atomic on the nonce, command and session
stores) are modeled as succeeding. -/
structure CoreState where
  policyFs : PolicyFs
  nonces : List (String × Int)
  commands : List (String × StoredCommandRecord)
  sessions : List (String × SessionRecord)
  audit : List AuditLogEntry
deriving DecidableEq

/-- The environment of one core invocation: the configuration, the
capabilities (verifier registry, command runner), the clock, and the
abstracted OS services.  A verifier is modeled as a predicate on
(public key, payload bytes, signature), the granularity at which the
source consumes it (any verifier error is mapped to the caller's
invalid-signature code).  The SHA-256 digest, filesystem path
canonicalization, file contents and lossy UTF-8 decoding are abstracted
as functions because no verified claim depends on their internals; the
pipeline only propagates and compares their results. -/
structure Env where
  config : PrivExecConfig
  verifiers : String → Option (String → String → String → Bool)
  runScript : String → Option RunnerOutput
  runScriptWithEnv : String → List (String × String) → Option RunnerOutput
  now : Int
  nowNanos : Int
  hashHex : String → String
  isAbsolutePath : String → Bool
  canonicalizePath : String → Option String
  fileBytes : String → Option (List Nat)
  utf8Lossy : List Nat → String
  parseJsonStdout : String → Option Json
  fsFaults : FsFaults

/-! Serialization of the signed payload types to JSON values, mirroring
the serde derive output: camelCase field names in declaration order,
Option fields as null, vectors as arrays, maps as objects. -/

def schemaVersionConst : Nat := 1

/-- Timestamps serialize as chrono RFC 3339 strings; the model renders
the unix-second value injectively, which is all the canonical-bytes
layer relies on. -/
def timeJson (t : Int) : Json := .str (toString t)

def optStrJson : Option String → Json
  | none => .null
  | some s => .str s

def optBoolJson : Option Bool → Json
  | none => .null
  | some b => .bool b

def optIntJson : Option Int → Json
  | none => .null
  | some n => .num n

def paramRuleToJson : ParamRule → Json
  | .string required default allowValues fixedValue =>
      .obj [("type", .str "string"), ("required", .bool required),
            ("default", optStrJson default),
            ("allowValues", .arr (allowValues.map Json.str)),
            ("fixedValue", optStrJson fixedValue)]
  | .bool required default fixedValue =>
      .obj [("type", .str "bool"), ("required", .bool required),
            ("default", optBoolJson default), ("fixedValue", optBoolJson fixedValue)]
  | .int required default minVal maxVal fixedValue =>
      .obj [("type", .str "int"), ("required", .bool required),
            ("default", optIntJson default), ("min", optIntJson minVal),
            ("max", optIntJson maxVal), ("fixedValue", optIntJson fixedValue)]
  | .path required default allowRoots allowExtensions fixedValue =>
      .obj [("type", .str "path"), ("required", .bool required),
            ("default", optStrJson default),
            ("allowRoots", .arr (allowRoots.map Json.str)),
            ("allowExtensions", .arr (allowExtensions.map Json.str)),
            ("fixedValue", optStrJson fixedValue)]

def policyCommandToJson (c : PolicyCommand) : Json :=
  .obj [("name", .str c.name), ("enabled", .bool c.enabled),
        ("requiresSession", .bool c.requiresSession),
        ("riskLevel", optStrJson c.riskLevel),
        ("params", .obj (c.params.map (fun p => (p.1, paramRuleToJson p.2))))]

def policySecurityToJson (s : PolicySecurity) : Json :=
  .obj [("requireSignature", .bool s.requireSignature),
        ("signatureAlgorithm", .str s.signatureAlgorithm),
        ("requireDeviceBinding", .bool s.requireDeviceBinding),
        ("requireNonce", .bool s.requireNonce),
        ("nonceTtlSeconds", .num s.nonceTtlSeconds),
        ("maxClockSkewSeconds", .num s.maxClockSkewSeconds),
        ("sessionTtlSeconds", .num s.sessionTtlSeconds),
        ("publicKeys", .obj (s.publicKeys.map (fun p => (p.1, Json.str p.2))))]

def defaultActionToJson : PolicyDefaultAction → Json
  | .deny => .str "deny"
  | .allow => .str "allow"

def policyToJson (p : PrivExecPolicy) : Json :=
  .obj [("schemaVersion", .num (p.schemaVersion : Int)),
        ("policyName", .str p.policyName),
        ("version", .num (p.version : Int)),
        ("defaultAction", defaultActionToJson p.defaultAction),
        ("security", policySecurityToJson p.security),
        ("allowedCommands", .arr (p.allowedCommands.map policyCommandToJson))]

def payloadToJson (p : CommandRequestPayload) : Json :=
  .obj [("schemaVersion", .num (p.schemaVersion : Int)),
        ("commandId", .str p.commandId),
        ("nonce", .str p.nonce),
        ("issuedAt", timeJson p.issuedAt),
        ("expiresAt", timeJson p.expiresAt),
        ("deviceId", .str p.deviceId),
        ("command", .str p.command),
        ("params", .obj p.params)]

def policyUpdateToJson (p : PolicyUpdatePayload) : Json :=
  .obj [("schemaVersion", .num (p.schemaVersion : Int)),
        ("version", .num (p.version : Int)),
        ("issuedAt", timeJson p.issuedAt),
        ("policy", policyToJson p.policy)]

/-- CommandRequestPayload::signing_bytes = canonical_json_bytes(self).
In the model the value-level serialization is total, so the
serialization-failure arm of the source (which would report
INVALID_SCHEMA) has no inhabitant. -/
def CommandRequestPayload.signingBytes (p : CommandRequestPayload) : String :=
  canonicalJsonString (payloadToJson p)

/-- PolicyUpdatePayload::signing_bytes. -/
def PolicyUpdatePayload.signingBytes (p : PolicyUpdatePayload) : String :=
  canonicalJsonString (policyUpdateToJson p)

/-- validate_payload_basic: schema version, non-blank required fields,
commandId at most 128 bytes. -/
def validatePayloadBasic (p : CommandRequestPayload) : Except PrivExecErrorCode Unit :=
  if p.schemaVersion ≠ schemaVersionConst then .error .invalidSchema
  else if isBlank p.commandId || decide (p.commandId.utf8ByteSize > 128) || isBlank p.nonce
      || isBlank p.deviceId || isBlank p.command then .error .invalidSchema
  else .ok ()

/-! Parameter validation (spec section 4.5, validate_params in the
source).  The body of the per-rule loop is the standalone function
applyRule; validate_params first rejects undeclared keys and then folds
applyRule over the rule map, collecting the emitted entries. -/

def resolveStringParam (name : String) (params : List (String × Json)) (required : Bool)
    (default : Option String) : Except PrivExecErrorCode String :=
  match alLookup name params with
  | some (.str s) => .ok s
  | some _ => .error .invalidParameter
  | none =>
      match default with
      | some d => .ok d
      | none => if required then .error .invalidParameter else .ok ""

def resolveBoolParam (name : String) (params : List (String × Json)) (required : Bool)
    (default : Option Bool) : Except PrivExecErrorCode Bool :=
  match alLookup name params with
  | some (.bool b) => .ok b
  | some _ => .error .invalidParameter
  | none =>
      match default with
      | some d => .ok d
      | none => if required then .error .invalidParameter else .ok false

def resolveIntParam (name : String) (params : List (String × Json)) (required : Bool)
    (default : Option Int) : Except PrivExecErrorCode Int :=
  match alLookup name params with
  | some (.num n) => .ok n
  | some _ => .error .invalidParameter
  | none =>
      match default with
      | some d => .ok d
      | none => if required then .error .invalidParameter else .ok 0

/-- canonicalize_secure_path: reject relative input as PATH_NOT_ALLOWED,
then canonicalize through the filesystem (PATH_NOT_FOUND on failure). -/
def canonicalizeSecurePath (env : Env) (path : String) : Except PrivExecErrorCode String :=
  if env.isAbsolutePath path = false then .error .pathNotAllowed
  else
    match env.canonicalizePath path with
    | some c => .ok c
    | none => .error .pathNotFound

/-- Final path component (after the last slash or backslash), as
Path::file_name sees it. -/
def lastComponent (s : String) : String :=
  ⟨(s.data.reverse.takeWhile (fun c => !(c == '/' || c == '\\'))).reverse⟩

/-- Path::extension: the portion of the file name after its last dot;
none when there is no dot, or when the only dot is the leading
character of the file name. -/
def pathExtension (s : String) : Option String :=
  match (lastComponent s).data with
  | [] => none
  | _ :: rest =>
      if rest.contains '.' then some ⟨(rest.reverse.takeWhile (fun c => c != '.')).reverse⟩
      else none

/-- is_under_root: case-insensitive prefix test after replacing forward
slashes by backslashes and normalizing a trailing separator. -/
def normalizeForRoot (s : String) : List Char :=
  let low := (s.data.map (fun c => if c = '/' then '\\' else c)).map lowerChar
  if low.getLast? == some '\\' then low else low ++ ['\\']

def isUnderRoot (path root : String) : Bool :=
  (normalizeForRoot root).isPrefixOf (normalizeForRoot path)

def fixedMismatch {α : Type} [BEq α] (value : α) : Option α → Bool
  | none => false
  | some expected => value != expected

/-- Root allow-list walk: canonicalize each root in order (propagating
its failure), stopping at the first root the canonical path is under. -/
def checkRoots (env : Env) (canonical : String) :
    List String → Except PrivExecErrorCode Bool
  | [] => .ok false
  | root :: rest => do
      let croot ← canonicalizeSecurePath env root
      if isUnderRoot canonical croot then .ok true else checkRoots env canonical rest

/-- Extension allow-list test of the path rule. -/
def checkExtensions (canonical : String) (allowExtensions : List String) :
    Except PrivExecErrorCode Unit :=
  if allowExtensions = [] then .ok ()
  else
    match pathExtension canonical with
    | none => .error .pathNotAllowed
    | some e =>
        let ext := "." ++ lowerStr e
        if allowExtensions.any (fun v => lowerStr v == ext) then .ok ()
        else .error .pathNotAllowed

/-- Body of the per-rule loop of validate_params: resolve a value,
apply absence and fixedValue handling, run the kind-specific checks,
and either emit one validated entry, emit nothing (optional absent), or
fail. -/
def applyRule (env : Env) (name : String) (rule : ParamRule)
    (params : List (String × Json)) : Except PrivExecErrorCode (Option (String × Json)) :=
  match rule with
  | .string required default allowValues fixedValue => do
      let resolved ← resolveStringParam name params required default
      let value := if resolved = "" then fixedValue.getD resolved else resolved
      if fixedMismatch value fixedValue then .error .invalidParameter
      else if value = "" ∧ required = false then .ok none
      else if ¬ allowValues = [] ∧ allowValues.contains value = false then
        .error .invalidParameter
      else .ok (some (name, .str value))
  | .bool required default fixedValue => do
      let resolved ← resolveBoolParam name params required default
      if alContains name params = false ∧ fixedValue = none ∧ required = false ∧
          default = none then .ok none
      else
        let value :=
          if alContains name params then resolved
          else match fixedValue with
            | some expected => expected
            | none => resolved
        if fixedMismatch value fixedValue then .error .invalidParameter
        else .ok (some (name, .bool value))
  | .int required default minVal maxVal fixedValue => do
      let resolved ← resolveIntParam name params required default
      if alContains name params = false ∧ fixedValue = none ∧ required = false ∧
          default = none then .ok none
      else
        let value :=
          if alContains name params then resolved
          else match fixedValue with
            | some expected => expected
            | none => resolved
        if fixedMismatch value fixedValue then .error .invalidParameter
        else if (match minVal with | some m => decide (value < m) | none => false) then
          .error .invalidParameter
        else if (match maxVal with | some m => decide (value > m) | none => false) then
          .error .invalidParameter
        else .ok (some (name, .num value))
  | .path required default allowRoots allowExtensions fixedValue => do
      let resolved ← resolveStringParam name params required default
      if resolved = "" ∧ fixedValue = none ∧ required = false then .ok none
      else
        let value := if resolved = "" then fixedValue.getD resolved else resolved
        if fixedMismatch value fixedValue then .error .invalidParameter
        else do
          let canonical ← canonicalizeSecurePath env value
          let _ ← checkExtensions canonical allowExtensions
          if allowRoots = [] then .ok (some (name, .str canonical))
          else do
            let under ← checkRoots env canonical allowRoots
            if under then .ok (some (name, .str canonical)) else .error .pathNotAllowed

def validateParamsGo (env : Env) (params : List (String × Json)) :
    List (String × ParamRule) → List (String × Json) →
      Except PrivExecErrorCode (List (String × Json))
  | [], acc => .ok acc
  | (name, rule) :: rest, acc =>
      match applyRule env name rule params with
      | .error c => .error c
      | .ok none => validateParamsGo env params rest acc
      | .ok (some kv) => validateParamsGo env params rest (acc ++ [kv])

/-- validate_params: reject any request key with no declared rule, then
process every declared rule, producing the validated map handed to the
handler. -/
def validateParams (env : Env) (commandPolicy : PolicyCommand)
    (params : List (String × Json)) : Except PrivExecErrorCode (List (String × Json)) :=
  if params.any (fun p => !(alContains p.1 commandPolicy.params)) then
    .error .invalidParameter
  else validateParamsGo env params commandPolicy.params []

/-! State stores and security checks. -/

/-- load_policy: POLICY_NOT_FOUND when the file is absent,
POLICY_INVALID when it does not parse. -/
def loadPolicy (st : CoreState) : Except PrivExecErrorCode PrivExecPolicy :=
  match st.policyFs.main with
  | none => .error .policyNotFound
  | some none => .error .policyInvalid
  | some (some p) => .ok p

def loadCommandRecord (st : CoreState) (commandId : String) : Option StoredCommandRecord :=
  alLookup commandId st.commands

def storeCommandRecord (st : CoreState) (commandId : String) (requestHash : String)
    (response : CommandResponse) : CoreState :=
  { st with commands := alInsert commandId ⟨requestHash, response⟩ st.commands }

/-- reserve_nonce: evict entries older than the ttl, reject a nonce that
is still present, else record it.  On a replay the eviction is not
persisted, matching the early return before the store write.  The i64
saturating subtraction of the source agrees with plain integer
subtraction on all in-range timestamps. -/
def reserveNonce (env : Env) (nonces : List (String × Int)) (nonce : String)
    (ttlSeconds : Int) : Except PrivExecErrorCode Unit × List (String × Int) :=
  let now := env.now
  let ttl := max ttlSeconds 1
  let retained := nonces.filter (fun p => decide (now - p.2 ≤ ttl))
  if alContains nonce retained then (.error .nonceReplay, nonces)
  else (.ok (), alInsert nonce now retained)

/-- touch_session: evict other expired records, reject unknown or
device-mismatched sessions without persisting, remove-and-persist an
expired record before returning SESSION_EXPIRED, else refresh the
heartbeat and expiry and persist. -/
def touchSession (env : Env) (sessions : List (String × SessionRecord))
    (sessionId deviceId : String) :
    Except PrivExecErrorCode Unit × List (String × SessionRecord) :=
  let now := env.now
  let retained := sessions.filter (fun p => p.1 == sessionId || decide (p.2.expiresAt > now))
  match alLookup sessionId retained with
  | none => (.error .sessionNotFound, sessions)
  | some record =>
      if record.deviceId ≠ deviceId then (.error .sessionNotFound, sessions)
      else if record.expiresAt ≤ now then
        (.error .sessionExpired, alRemove sessionId retained)
      else
        let updated := { record with
          lastHeartbeatAt := now
          expiresAt := now + max record.ttlSeconds 1 }
        (.ok (), alInsert sessionId updated retained)

/-- Dispatch to a registered verifier (verifier registry reads are
modeled as succeeding; a read failure would be INTERNAL_ERROR). -/
def verifyDispatch (env : Env) (algo key payloadBytes sigStr : String)
    (invalidSignatureCode : PrivExecErrorCode) : Except PrivExecErrorCode Unit :=
  match env.verifiers algo with
  | none => .error .unsupportedSignatureAlgorithm
  | some verifier =>
      if verifier key payloadBytes sigStr then .ok () else .error invalidSignatureCode

/-- verify_with_keys: look up the key id, check the expected algorithm
case-insensitively when one is given, dispatch to the verifier. -/
def verifyWithKeys (env : Env) (signature : SignatureEnvelope) (payloadBytes : String)
    (keys : List (String × String)) (expectedAlgorithm : Option String)
    (invalidSignatureCode : PrivExecErrorCode) : Except PrivExecErrorCode Unit :=
  match alLookup signature.keyId keys with
  | none => .error invalidSignatureCode
  | some key =>
      let algo := lowerStr signature.algorithm
      match expectedAlgorithm with
      | some expected =>
          if eqIgnoreAsciiCase algo expected = false then
            .error .unsupportedSignatureAlgorithm
          else verifyDispatch env algo key payloadBytes signature.signature invalidSignatureCode
      | none => verifyDispatch env algo key payloadBytes signature.signature invalidSignatureCode

/-- Effective key set for request verification: the policy's publicKeys
when non-empty, else the bootstrap keys. -/
def effectiveRequestKeys (env : Env) (policy : PrivExecPolicy) : List (String × String) :=
  if ¬ policy.security.publicKeys = [] then policy.security.publicKeys
  else env.config.bootstrapPublicKeys

/-- verify_request_security: signature (when required), device binding,
then freshness with the clamped clock skew. -/
def verifyRequestSecurity (env : Env) (request : SignedCommandRequest)
    (payloadBytes : String) (policy : PrivExecPolicy) : Except PrivExecErrorCode Unit := do
  let _ ← (if policy.security.requireSignature then
      verifyWithKeys env request.signature payloadBytes (effectiveRequestKeys env policy)
        (some policy.security.signatureAlgorithm) .invalidSignature
    else .ok ())
  if policy.security.requireDeviceBinding = true ∧
      request.payload.deviceId ≠ env.config.deviceId then
    .error .deviceIdMismatch
  else
    let skew := max policy.security.maxClockSkewSeconds 0
    if request.payload.expiresAt < request.payload.issuedAt then .error .invalidSchema
    else if env.now < request.payload.issuedAt - skew then .error .requestNotYetValid
    else if env.now > request.payload.expiresAt + skew then .error .requestExpired
    else .ok ()

/-! Command handlers (spec section 4.6). -/

def exceptD {ε α : Type} (e : Except ε α) (d : α) : α :=
  match e with
  | .ok v => v
  | .error _ => d

def getString (params : List (String × Json)) (name : String) :
    Except PrivExecErrorCode String :=
  match alLookup name params with
  | some (.str s) => .ok s
  | _ => .error .invalidParameter

def getBool (params : List (String × Json)) (name : String) :
    Except PrivExecErrorCode Bool :=
  match alLookup name params with
  | some (.bool b) => .ok b
  | _ => .error .invalidParameter

def getI64 (params : List (String × Json)) (name : String) :
    Except PrivExecErrorCode Int :=
  match alLookup name params with
  | some (.num n) => .ok n
  | _ => .error .invalidParameter

/-- ps_quote: single-quote a value for PowerShell, doubling embedded
single quotes. -/
def psQuote (value : String) : String :=
  "\x27" ++ ⟨value.data.flatMap (fun c => if c = '\x27' then ['\x27', '\x27'] else [c])⟩
    ++ "\x27"

/-- run_powershell_json: run the script, fail on runner error or
non-zero status, return an empty object for empty stdout, else parse
stdout as JSON degrading to the raw trimmed string. -/
def runPowershellJson (env : Env) (script : String) :
    Except PrivExecErrorCode Json × List RunnerCall :=
  let call : RunnerCall := ⟨script, [], false⟩
  match env.runScript script with
  | none => (.error .commandExecutionFailed, [call])
  | some output =>
      if output.statusCode ≠ 0 then (.error .commandExecutionFailed, [call])
      else
        let stdout := trimStr output.stdout
        if stdout = "" then (.ok (.obj []), [call])
        else
          match env.parseJsonStdout stdout with
          | some v => (.ok v, [call])
          | none => (.ok (.str stdout), [call])

/-- run_powershell_json_with_env: as runPowershellJson but through the
environment-carrying runner entry point. -/
def runPowershellJsonWithEnv (env : Env) (script : String)
    (envVars : List (String × String)) : Except PrivExecErrorCode Json × List RunnerCall :=
  let call : RunnerCall := ⟨script, envVars, true⟩
  match env.runScriptWithEnv script envVars with
  | none => (.error .commandExecutionFailed, [call])
  | some output =>
      if output.statusCode ≠ 0 then (.error .commandExecutionFailed, [call])
      else
        let stdout := trimStr output.stdout
        if stdout = "" then (.ok (.obj []), [call])
        else
          match env.parseJsonStdout stdout with
          | some v => (.ok v, [call])
          | none => (.ok (.str stdout), [call])

def sessionSeed (env : Env) (payload : CommandRequestPayload) : String :=
  payload.deviceId ++ ":" ++ payload.commandId ++ ":" ++ payload.nonce ++ ":"
    ++ toString env.nowNanos

/-- exec_begin_session: evict expired records, insert a fresh
device-bound record with the policy session ttl, persist, and return
the session descriptor. -/
def execBeginSession (env : Env) (sessions : List (String × SessionRecord))
    (payload : CommandRequestPayload) (policy : PrivExecPolicy) :
    Except PrivExecErrorCode Json × List (String × SessionRecord) :=
  let now := env.now
  let ttlSeconds := max policy.security.sessionTtlSeconds 1
  let sessionId := env.hashHex (sessionSeed env payload)
  let retained := sessions.filter (fun p => decide (p.2.expiresAt > now))
  let record : SessionRecord :=
    { deviceId := payload.deviceId
      issuedAt := now
      expiresAt := now + ttlSeconds
      lastHeartbeatAt := now
      ttlSeconds := ttlSeconds }
  (.ok (.obj [("sessionId", .str sessionId), ("issuedAt", timeJson record.issuedAt),
      ("expiresAt", timeJson record.expiresAt), ("ttlSeconds", .num ttlSeconds)]),
    alInsert sessionId record retained)

/-- exec_heartbeat: the dispatched-command variant of touchSession,
returning the refreshed expiry. -/
def execHeartbeat (env : Env) (sessions : List (String × SessionRecord))
    (payload : CommandRequestPayload) (params : List (String × Json)) :
    Except PrivExecErrorCode Json × List (String × SessionRecord) :=
  match getString params "sessionId" with
  | .error c => (.error c, sessions)
  | .ok sessionId =>
      let now := env.now
      let retained :=
        sessions.filter (fun p => p.1 == sessionId || decide (p.2.expiresAt > now))
      match alLookup sessionId retained with
      | none => (.error .sessionNotFound, sessions)
      | some record =>
          if record.deviceId ≠ payload.deviceId then (.error .sessionNotFound, sessions)
          else if record.expiresAt ≤ now then
            (.error .sessionExpired, alRemove sessionId retained)
          else
            let updated := { record with
              lastHeartbeatAt := now
              expiresAt := now + max record.ttlSeconds 1 }
            (.ok (.obj [("sessionId", .str sessionId),
                ("expiresAt", timeJson updated.expiresAt),
                ("ttlSeconds", .num record.ttlSeconds)]),
              alInsert sessionId updated retained)

/-- exec_end_session: remove the record when the device matches. -/
def execEndSession (sessions : List (String × SessionRecord))
    (payload : CommandRequestPayload) (params : List (String × Json)) :
    Except PrivExecErrorCode Json × List (String × SessionRecord) :=
  match getString params "sessionId" with
  | .error c => (.error c, sessions)
  | .ok sessionId =>
      match alLookup sessionId sessions with
      | none => (.error .sessionNotFound, sessions)
      | some record =>
          if record.deviceId ≠ payload.deviceId then (.error .sessionNotFound, sessions)
          else
            (.ok (.obj [("ended", .bool true), ("sessionId", .str sessionId)]),
              alRemove sessionId sessions)

def mountVhdScript (path mountPoint access : String) : String :=
  "$imagePath=" ++ psQuote path ++ ";$mountPoint=" ++ psQuote mountPoint
    ++ ";$img=Mount-DiskImage -ImagePath $imagePath -StorageType VHD -NoDriveLetter -Access "
    ++ access ++ " -PassThru -ErrorAction Stop;"
    ++ "if ($mountPoint -ne \x27\x27) \x7b $part=$img | Get-Disk | Get-Partition | "
    ++ "Where-Object \x7b ($_ | Get-Volume) -ne $null \x7d | Select-Object -First 1; "
    ++ "if ($part -ne $null) \x7b Add-PartitionAccessPath -DiskNumber $part.DiskNumber "
    ++ "-PartitionNumber $part.PartitionNumber -AccessPath $mountPoint -ErrorAction Stop; "
    ++ "\x7d \x7d;"
    ++ "$img | Select-Object ImagePath,Attached | ConvertTo-Json -Compress"

def execMountVhd (env : Env) (params : List (String × Json)) :
    Except PrivExecErrorCode Json × List RunnerCall :=
  match getString params "path" with
  | .error c => (.error c, [])
  | .ok path =>
      let readOnly := exceptD (getBool params "readOnly") false
      let mountPoint := exceptD (getString params "mountPoint") "X:\\"
      let access := if readOnly then "ReadOnly" else "ReadWrite"
      runPowershellJson env (mountVhdScript path mountPoint access)

def unmountVhdScript (path : String) : String :=
  "$imagePath=" ++ psQuote path
    ++ ";Dismount-DiskImage -ImagePath $imagePath -Confirm:$false -ErrorAction Stop;"
    ++ "@\x7bok=$true;imagePath=$imagePath\x7d | ConvertTo-Json -Compress"

def execUnmountVhd (env : Env) (params : List (String × Json)) :
    Except PrivExecErrorCode Json × List RunnerCall :=
  match getString params "path" with
  | .error c => (.error c, [])
  | .ok path => runPowershellJson env (unmountVhdScript path)

def queryBitlockerScript (mountPoint : String) : String :=
  "$mountPoint=" ++ psQuote mountPoint
    ++ ";Get-BitLockerVolume -MountPoint $mountPoint -ErrorAction Stop | "
    ++ "Select-Object MountPoint,VolumeStatus,ProtectionStatus,LockStatus,"
    ++ "EncryptionPercentage,AutoUnlockEnabled | ConvertTo-Json -Compress"

def execQueryBitlockerStatus (env : Env) (params : List (String × Json)) :
    Except PrivExecErrorCode Json × List RunnerCall :=
  match getString params "mountPoint" with
  | .error c => (.error c, [])
  | .ok mountPoint => runPowershellJson env (queryBitlockerScript mountPoint)

/-- Environment variable name carrying the BitLocker secret. -/
def unlockSecretEnvKey : String := "CONFIGARC_UNLOCK_SECRET"

def unlockCmdRecovery : String :=
  "$secret=$env:CONFIGARC_UNLOCK_SECRET;Unlock-BitLocker -MountPoint $mountPoint "
    ++ "-RecoveryPassword $secret -ErrorAction Stop"

def unlockCmdPassword : String :=
  "$secret=$env:CONFIGARC_UNLOCK_SECRET;$secure=ConvertTo-SecureString -String $secret "
    ++ "-AsPlainText -Force;Unlock-BitLocker -MountPoint $mountPoint -Password $secure "
    ++ "-ErrorAction Stop"

/-- The composed unlock_bitlocker script.  It is a function of the
mount point, the skip flag and the chosen credential kind only; the
secret itself reaches the runner exclusively through the environment
map. -/
def unlockBitlockerScript (mountPoint : String) (skipIfUnlocked useRecovery : Bool) :
    String :=
  "$mountPoint=" ++ psQuote mountPoint
    ++ ";$vol=Get-BitLockerVolume -MountPoint $mountPoint -ErrorAction Stop;"
    ++ "if ($vol.LockStatus -eq \x27Unlocked\x27 -and "
    ++ (if skipIfUnlocked then "$true" else "$false")
    ++ ") \x7b @\x7bok=$true;mountPoint=$mountPoint;alreadyUnlocked=$true;"
    ++ "lockStatus=$vol.LockStatus;protectionStatus=$vol.ProtectionStatus\x7d | "
    ++ "ConvertTo-Json -Compress; exit 0 \x7d;"
    ++ (if useRecovery then unlockCmdRecovery else unlockCmdPassword) ++ ";"
    ++ "$after=Get-BitLockerVolume -MountPoint $mountPoint -ErrorAction Stop;"
    ++ "@\x7bok=$true;mountPoint=$mountPoint;alreadyUnlocked=$false;"
    ++ "lockStatus=$after.LockStatus;protectionStatus=$after.ProtectionStatus\x7d | "
    ++ "ConvertTo-Json -Compress"

def jsonAsStr : Json → Option String
  | .str s => some s
  | _ => none

/-- exec_unlock_bitlocker: exactly one of recoveryPassword or password
must be supplied non-blank; the secret travels to the runner in the
environment map under CONFIGARC_UNLOCK_SECRET. -/
def execUnlockBitlocker (env : Env) (params : List (String × Json)) :
    Except PrivExecErrorCode Json × List RunnerCall :=
  match getString params "mountPoint" with
  | .error c => (.error c, [])
  | .ok mountPoint =>
      let recoveryPassword :=
        Option.filter (fun v => !(isBlank v)) ((alLookup "recoveryPassword" params).bind jsonAsStr)
      let password :=
        Option.filter (fun v => !(isBlank v)) ((alLookup "password" params).bind jsonAsStr)
      let skipIfUnlocked := exceptD (getBool params "skipIfUnlocked") true
      if recoveryPassword.isSome == password.isSome then (.error .invalidParameter, [])
      else
        match recoveryPassword, password with
        | none, none => (.error .invalidParameter, [])
        | rp, pw =>
            let secret :=
              match rp with
              | some recovery => recovery
              | none => pw.getD ""
            let useRecovery :=
              match (alLookup "recoveryPassword" params).bind jsonAsStr with
              | some v => !(isBlank v)
              | none => false
            runPowershellJsonWithEnv env
              (unlockBitlockerScript mountPoint skipIfUnlocked useRecovery)
              [(unlockSecretEnvKey, secret)]

def lockBitlockerScript (mountPoint : String) (forceDismount : Bool) : String :=
  let forceFlag := if forceDismount then "$true" else "$false"
  "$mountPoint=" ++ psQuote mountPoint
    ++ ";Lock-BitLocker -MountPoint $mountPoint -ForceDismount:" ++ forceFlag
    ++ " -ErrorAction Stop;"
    ++ "@\x7bok=$true;mountPoint=$mountPoint;forceDismount=" ++ forceFlag
    ++ "\x7d | ConvertTo-Json -Compress"

def execLockBitlocker (env : Env) (params : List (String × Json)) :
    Except PrivExecErrorCode Json × List RunnerCall :=
  match getString params "mountPoint" with
  | .error c => (.error c, [])
  | .ok mountPoint =>
      let forceDismount := exceptD (getBool params "forceDismount") true
      runPowershellJson env (lockBitlockerScript mountPoint forceDismount)

def queryDiskScript : String :=
  "Get-Disk | Select-Object Number,FriendlyName,OperationalStatus,PartitionStyle,Size | "
    ++ "ConvertTo-Json -Compress"

def execQueryDisk (env : Env) : Except PrivExecErrorCode Json × List RunnerCall :=
  runPowershellJson env queryDiskScript

def queryServiceScript (serviceName : String) : String :=
  "Get-Service -Name " ++ psQuote serviceName
    ++ " -ErrorAction Stop | Select-Object Name,Status,StartType | ConvertTo-Json -Compress"

def execQueryServiceStatus (env : Env) (params : List (String × Json)) :
    Except PrivExecErrorCode Json × List RunnerCall :=
  match getString params "serviceName" with
  | .error c => (.error c, [])
  | .ok serviceName => runPowershellJson env (queryServiceScript serviceName)

/-- exec_collect_log: bounded in-process tail read of a file.  The open
and metadata failures of the source both surface as PATH_NOT_FOUND
here because the abstract filesystem exposes a file's bytes in one
step; the seek and exact-read failures (COMMAND_EXECUTION_FAILED in
the source) have no analogue in the abstraction. -/
def execCollectLog (env : Env) (params : List (String × Json)) :
    Except PrivExecErrorCode Json × List RunnerCall :=
  match getString params "path" with
  | .error c => (.error c, [])
  | .ok path =>
      let maxBytes := max (exceptD (getI64 params "maxBytes") 1048576) 1
      match env.fileBytes path with
      | none => (.error .pathNotFound, [])
      | some bytes =>
          let size : Int := bytes.length
          let readLen := min size maxBytes
          let buf :=
            if readLen < size then bytes.drop (bytes.length - readLen.toNat) else bytes
          (.ok (.obj [("path", .str path), ("bytes", .num readLen),
              ("truncated", .bool (decide (size > readLen))),
              ("content", .str (env.utf8Lossy buf))]), [])

/-- execute_command: the closed dispatch table, with the hard-coded
restart_service guard ahead of it. -/
def executeCommand (env : Env) (st : CoreState) (payload : CommandRequestPayload)
    (policy : PrivExecPolicy) (params : List (String × Json)) :
    Except PrivExecErrorCode Json × CoreState × List RunnerCall :=
  if eqIgnoreAsciiCase payload.command "restart_service" then
    (.error .commandDisabled, st, [])
  else
    match lowerStr payload.command with
    | "begin_session" =>
        let (r, sessions) := execBeginSession env st.sessions payload policy
        (r, { st with sessions := sessions }, [])
    | "heartbeat" =>
        let (r, sessions) := execHeartbeat env st.sessions payload params
        (r, { st with sessions := sessions }, [])
    | "end_session" =>
        let (r, sessions) := execEndSession st.sessions payload params
        (r, { st with sessions := sessions }, [])
    | "mount_vhd" =>
        let (r, calls) := execMountVhd env params
        (r, st, calls)
    | "unmount_vhd" =>
        let (r, calls) := execUnmountVhd env params
        (r, st, calls)
    | "query_bitlocker_status" =>
        let (r, calls) := execQueryBitlockerStatus env params
        (r, st, calls)
    | "unlock_bitlocker" =>
        let (r, calls) := execUnlockBitlocker env params
        (r, st, calls)
    | "lock_bitlocker" =>
        let (r, calls) := execLockBitlocker env params
        (r, st, calls)
    | "query_disk" =>
        let (r, calls) := execQueryDisk env
        (r, st, calls)
    | "query_service_status" =>
        let (r, calls) := execQueryServiceStatus env params
        (r, st, calls)
    | "collect_log" =>
        let (r, calls) := execCollectLog env params
        (r, st, calls)
    | _ => (.error .policyDeny, st, [])

/-! The request pipeline (spec section 4.4, execute_locked and
execute_request in the source). -/

/-- Result of one locked pipeline pass: the response, whether a command
record must be persisted, the updated state and the runner calls. -/
structure ExecResult where
  response : CommandResponse
  persist : Bool
  state : CoreState
  calls : List RunnerCall
deriving DecidableEq

/-- error_response: an ok=false response carrying the stable code and
message strings. -/
def errorResponse (env : Env) (commandId : String) (code : PrivExecErrorCode)
    (idempotentReplay : Bool) : CommandResponse :=
  { schemaVersion := schemaVersionConst
    commandId := commandId
    ok := false
    code := code.asStr
    message := code.message
    executedAt := env.now
    idempotentReplay := idempotentReplay
    result := none }

/-- The pipeline tail from the command match (step 8) on: command
match, enabled and restart_service gates, session gate, parameter
validation, session touch, dispatch, success response.  Every outcome
of this region carries persist = true. -/
def executeMatched (env : Env) (st₁ : CoreState) (request : SignedCommandRequest)
    (policy : PrivExecPolicy) : ExecResult :=
  let commandId := request.payload.commandId
  match policy.allowedCommands.find?
      (fun c => eqIgnoreAsciiCase c.name request.payload.command) with
  | none => ⟨errorResponse env commandId .policyDeny false, true, st₁, []⟩
  | some commandPolicy =>
  if commandPolicy.enabled = false ∨ eqIgnoreAsciiCase commandPolicy.name "restart_service" then
    ⟨errorResponse env commandId .commandDisabled false, true, st₁, []⟩
  else if commandPolicy.requiresSession = true ∧
      alContains "sessionId" request.payload.params = false then
    ⟨errorResponse env commandId .sessionRequired false, true, st₁, []⟩
  else
  match validateParams env commandPolicy request.payload.params with
  | .error code => ⟨errorResponse env commandId code false, true, st₁, []⟩
  | .ok validatedParams =>
  match (if commandPolicy.requiresSession then
      (match (alLookup "sessionId" validatedParams).bind jsonAsStr with
       | some v => if isBlank v then Except.error PrivExecErrorCode.sessionRequired
           else Except.ok (some v)
       | none => Except.error PrivExecErrorCode.sessionRequired)
    else Except.ok none) with
  | .error code => ⟨errorResponse env commandId code false, true, st₁, []⟩
  | .ok sessionIdOpt =>
  match (match sessionIdOpt with
         | some sessionId => touchSession env st₁.sessions sessionId request.payload.deviceId
         | none => (.ok (), st₁.sessions)) with
  | (.error code, sessions₂) =>
      ⟨errorResponse env commandId code false, true, { st₁ with sessions := sessions₂ }, []⟩
  | (.ok (), sessions₂) =>
  let out := executeCommand env { st₁ with sessions := sessions₂ } request.payload policy
    validatedParams
  match out.1 with
  | .error code => ⟨errorResponse env commandId code false, true, out.2.1, out.2.2⟩
  | .ok result =>
      ⟨{ schemaVersion := schemaVersionConst
         commandId := commandId
         ok := true
         code := PrivExecErrorCode.ok.asStr
         message := PrivExecErrorCode.ok.message
         executedAt := env.now
         idempotentReplay := false
         result := some result }, true, out.2.1, out.2.2⟩

/-- execute_locked: the serialized critical section.  Step order is
normative: basic schema, policy load and default-action gate, security
checks, idempotency lookup, nonce reservation, then the matched tail
(executeMatched).  The persist flag is false for every outcome before
the command match and true from the command match on. -/
def executeLocked (env : Env) (st : CoreState) (request : SignedCommandRequest)
    (payloadBytes : String) (requestHash : String) : ExecResult :=
  let commandId := request.payload.commandId
  match validatePayloadBasic request.payload with
  | .error code => ⟨errorResponse env commandId code false, false, st, []⟩
  | .ok () =>
  match loadPolicy st with
  | .error code => ⟨errorResponse env commandId code false, false, st, []⟩
  | .ok policy =>
  if policy.defaultAction ≠ .deny then
    ⟨errorResponse env commandId .policyInvalid false, false, st, []⟩
  else
  match verifyRequestSecurity env request payloadBytes policy with
  | .error code => ⟨errorResponse env commandId code false, false, st, []⟩
  | .ok () =>
  match loadCommandRecord st commandId with
  | some existing =>
      if existing.requestHash = requestHash then
        ⟨{ existing.response with idempotentReplay := true }, false, st, []⟩
      else ⟨errorResponse env commandId .commandIdConflict false, false, st, []⟩
  | none =>
  match (if policy.security.requireNonce then
      reserveNonce env st.nonces request.payload.nonce policy.security.nonceTtlSeconds
    else (.ok (), st.nonces)) with
  | (.error code, _) => ⟨errorResponse env commandId code false, false, st, []⟩
  | (.ok (), nonces₁) =>
  executeMatched env { st with nonces := nonces₁ } request policy

/-- Result of one execute_request call: the response, the final state
(including the appended audit line) and the runner calls made. -/
structure RequestResult where
  response : CommandResponse
  state : CoreState
  calls : List RunnerCall
deriving DecidableEq

/-- write_audit_log: append one line (best effort in the source; the
model appends unconditionally).  The durationMs wall-clock measurement
of the source is not modeled. -/
def writeAuditLog (env : Env) (st : CoreState) (response : CommandResponse)
    (requestHash command : String) : CoreState :=
  { st with audit := st.audit ++ [{
      schemaVersion := schemaVersionConst
      timestamp := env.now
      commandId := response.commandId
      command := command
      ok := response.ok
      code := response.code
      idempotentReplay := response.idempotentReplay
      requestHash := requestHash }] }

/-- execute_request: canonicalize and hash, run the locked section,
persist the command record when the pipeline says so, then audit. -/
def executeRequest (env : Env) (st : CoreState) (request : SignedCommandRequest) :
    RequestResult :=
  let payloadBytes := request.payload.signingBytes
  let requestHash := env.hashHex payloadBytes
  let r := executeLocked env st request payloadBytes requestHash
  let st₁ :=
    if r.persist then storeCommandRecord r.state r.response.commandId requestHash r.response
    else r.state
  ⟨r.response, writeAuditLog env st₁ r.response requestHash request.payload.command, r.calls⟩

/-! The policy update pipeline (spec sections 4.7 and 4.8). -/

/-- replace_policy_atomically over the three policy file slots, under
the configured fault profile.  The error payload is the rolled_back
flag.  The best-effort removal of the backup after a successful swap is
modeled as succeeding. -/
def replacePolicyAtomically (env : Env) (fs : PolicyFs) (doc : PolicyDoc) :
    Except Bool Unit × PolicyFs :=
  let faults := env.fsFaults
  if faults.createDirFails then (.error false, fs)
  else if faults.writeTmpFails then (.error false, fs)
  else
    let fs₁ := { fs with tmp := some doc }
    match fs₁.main with
    | none =>
        if faults.renameTmpToMainFails then (.error false, fs₁)
        else (.ok (), { fs₁ with main := some doc, tmp := none })
    | some mainDoc =>
        if faults.renameMainToBakFails then (.error false, { fs₁ with tmp := none })
        else
          let fs₂ := { fs₁ with main := none, bak := some mainDoc }
          if env.config.policyReplaceFailAfterBackup then
            let fs₃ := { fs₂ with tmp := none }
            if faults.renameBakToMainFails then (.error false, fs₃)
            else (.error true, { fs₃ with main := some mainDoc, bak := none })
          else if faults.renameTmpToMainFails then
            let fs₃ := { fs₂ with tmp := none }
            if faults.renameBakToMainFails then (.error false, fs₃)
            else (.error true, { fs₃ with main := some mainDoc, bak := none })
          else (.ok (), { fs₂ with main := some doc, tmp := none, bak := none })

/-- Effective signing keys for a policy update: the current policy's
publicKeys when a policy loads and its key set is non-empty, else the
bootstrap keys. -/
def updateSigningKeys (env : Env) (existingPolicy : Option PrivExecPolicy) :
    List (String × String) :=
  match existingPolicy with
  | some current =>
      if ¬ current.security.publicKeys = [] then current.security.publicKeys
      else env.config.bootstrapPublicKeys
  | none => env.config.bootstrapPublicKeys

/-- Version monotonicity gate: an update is rejected when a current
policy loads and the envelope version is not strictly greater. -/
def versionRejected (existing : Option PrivExecPolicy) (v : Nat) : Bool :=
  match existing with
  | some current => decide (v ≤ current.version)
  | none => false

/-- apply_policy_update_locked: schema gate, default-action gate,
envelope-policy version equality, version monotonicity against the
loaded current policy (skipped when none loads), signature against the
effective keys, then the atomic replacement. -/
def applyPolicyUpdateLocked (env : Env) (st : CoreState)
    (request : SignedPolicyUpdateRequest) :
    Except (PrivExecErrorCode × Bool) Nat × CoreState :=
  if request.payload.schemaVersion ≠ schemaVersionConst then
    (.error (.invalidSchema, false), st)
  else if request.payload.policy.defaultAction ≠ .deny then
    (.error (.policyInvalid, false), st)
  else if request.payload.policy.version ≠ request.payload.version then
    (.error (.policyInvalid, false), st)
  else
    let payloadBytes := request.payload.signingBytes
    let existingPolicy := (loadPolicy st).toOption
    if versionRejected existingPolicy request.payload.version then
      (.error (.policyUpdateVersionRejected, false), st)
    else
      let keys := updateSigningKeys env existingPolicy
      if keys = [] then (.error (.policyUpdateInvalidSignature, false), st)
      else
        match verifyWithKeys env request.signature payloadBytes keys none
            .policyUpdateInvalidSignature with
        | .error code => (.error (code, false), st)
        | .ok () =>
            match replacePolicyAtomically env st.policyFs (some request.payload.policy) with
            | (.ok (), fs₁) => (.ok request.payload.version, { st with policyFs := fs₁ })
            | (.error rolledBack, fs₁) =>
                (.error (.policyUpdateRollback, rolledBack), { st with policyFs := fs₁ })

/-- apply_policy_update: package the locked result as a response. -/
def applyPolicyUpdate (env : Env) (st : CoreState) (request : SignedPolicyUpdateRequest) :
    PolicyUpdateResponse × CoreState :=
  match applyPolicyUpdateLocked env st request with
  | (.ok version, st₁) =>
      ({ ok := true
         code := PrivExecErrorCode.ok.asStr
         message := PrivExecErrorCode.ok.message
         version := version
         rolledBack := false }, st₁)
  | (.error (err, rolledBack), st₁) =>
      ({ ok := false
         code := err.asStr
         message := err.message
         version := request.payload.version
         rolledBack := rolledBack }, st₁)

/-! Claim C2: idempotent replay. -/

theorem executeLocked_replay (env : Env) (st : CoreState) (request : SignedCommandRequest)
    (payloadBytes requestHash : String) (existing : StoredCommandRecord)
    (policy : PrivExecPolicy)
    (hbasic : validatePayloadBasic request.payload = .ok ())
    (hpolicy : loadPolicy st = .ok policy)
    (hdeny : policy.defaultAction = .deny)
    (hsec : verifyRequestSecurity env request payloadBytes policy = .ok ())
    (hrec : loadCommandRecord st request.payload.commandId = some existing)
    (hhash : existing.requestHash = requestHash) :
    executeLocked env st request payloadBytes requestHash =
      ⟨{ existing.response with idempotentReplay := true }, false, st, []⟩ := by
  unfold executeLocked
  rw [hbasic, hpolicy]
  simp [hdeny, hsec, hrec, hhash]

/-- C2: when a persisted command record with the same commandId and an
identical requestHash exists and the request passes the schema, policy
and security checks that precede the idempotency lookup, execute
returns the stored response with idempotentReplay set, runs no handler
(no CommandRunner call), reserves no nonce, touches no session, and
does not re-persist the command record: the final state differs from
the initial one only by the appended audit line. -/
theorem C2_idempotent_replay (env : Env) (st : CoreState) (request : SignedCommandRequest)
    (existing : StoredCommandRecord) (policy : PrivExecPolicy)
    (hbasic : validatePayloadBasic request.payload = .ok ())
    (hpolicy : loadPolicy st = .ok policy)
    (hdeny : policy.defaultAction = .deny)
    (hsec : verifyRequestSecurity env request request.payload.signingBytes policy = .ok ())
    (hrec : loadCommandRecord st request.payload.commandId = some existing)
    (hhash : existing.requestHash = env.hashHex request.payload.signingBytes) :
    executeRequest env st request =
      ⟨{ existing.response with idempotentReplay := true },
        writeAuditLog env st { existing.response with idempotentReplay := true }
          (env.hashHex request.payload.signingBytes) request.payload.command,
        []⟩ := by
  have h := executeLocked_replay env st request request.payload.signingBytes
    (env.hashHex request.payload.signingBytes) existing policy hbasic hpolicy hdeny hsec
    hrec hhash
  simp [executeRequest, h]

def c2Env : Env where
  config := { deviceId := "device-1"
              bootstrapPublicKeys := [("k1", "pk")]
              policyReplaceFailAfterBackup := false }
  verifiers := fun a => if a = "ed25519" then some (fun _ _ _ => true) else none
  runScript := fun _ => some ⟨0, "", ""⟩
  runScriptWithEnv := fun _ _ => some ⟨0, "", ""⟩
  now := 1000
  nowNanos := 0
  hashHex := fun _ => "h1"
  isAbsolutePath := fun _ => true
  canonicalizePath := fun s => some s
  fileBytes := fun _ => none
  utf8Lossy := fun _ => ""
  parseJsonStdout := fun _ => none
  fsFaults := ⟨false, false, false, false, false⟩

def c2Policy : PrivExecPolicy where
  schemaVersion := 1
  policyName := "p"
  version := 1
  defaultAction := .deny
  security := { requireSignature := true
                signatureAlgorithm := "ed25519"
                requireDeviceBinding := true
                requireNonce := true
                nonceTtlSeconds := 120
                maxClockSkewSeconds := 30
                sessionTtlSeconds := 120
                publicKeys := [("k1", "pk")] }
  allowedCommands :=
    [{ name := "query_disk", enabled := true, requiresSession := false,
       riskLevel := none, params := [] }]

def c2StoredResponse : CommandResponse where
  schemaVersion := 1
  commandId := "cmd-1"
  ok := true
  code := "OK"
  message := "Success"
  executedAt := 900
  idempotentReplay := false
  result := some (.obj [("ok", .bool true)])

def c2Stored : StoredCommandRecord where
  requestHash := "h1"
  response := c2StoredResponse

def c2State : CoreState where
  policyFs := ⟨some (some c2Policy), none, none⟩
  nonces := []
  commands := [("cmd-1", c2Stored)]
  sessions := []
  audit := []

def c2Req : SignedCommandRequest where
  payload := { schemaVersion := 1
               commandId := "cmd-1"
               nonce := "n-1"
               issuedAt := 995
               expiresAt := 1060
               deviceId := "device-1"
               command := "query_disk"
               params := [] }
  signature := { algorithm := "ed25519", keyId := "k1", signature := "sig" }

/-- Witness for C2: a concrete replayed request satisfies every
hypothesis and is answered from the stored record. -/
theorem C2_idempotent_replay_witness :
    validatePayloadBasic c2Req.payload = .ok () ∧
    loadPolicy c2State = .ok c2Policy ∧
    c2Policy.defaultAction = .deny ∧
    verifyRequestSecurity c2Env c2Req c2Req.payload.signingBytes c2Policy = .ok () ∧
    loadCommandRecord c2State c2Req.payload.commandId = some c2Stored ∧
    c2Stored.requestHash = c2Env.hashHex c2Req.payload.signingBytes ∧
    executeRequest c2Env c2State c2Req =
      ⟨{ c2Stored.response with idempotentReplay := true },
        writeAuditLog c2Env c2State { c2Stored.response with idempotentReplay := true }
          (c2Env.hashHex c2Req.payload.signingBytes) c2Req.payload.command,
        []⟩ :=
  ⟨by decide, by decide, by decide, by decide, by decide, by decide,
    C2_idempotent_replay c2Env c2State c2Req c2Stored c2Policy (by decide) (by decide)
      (by decide) (by decide) (by decide) (by decide)⟩

/-! Claim C3: the persistence boundary of the pipeline. -/

theorem executeCommand_commands (env : Env) (st : CoreState)
    (payload : CommandRequestPayload) (policy : PrivExecPolicy)
    (params : List (String × Json)) :
    (executeCommand env st payload policy params).2.1.commands = st.commands := by
  unfold executeCommand
  split
  · rfl
  · split <;> rfl

/-- The pipeline passes every stage before the command match (step 8):
basic schema, policy load with default deny, security checks, no stored
record under this commandId, and nonce reservation when required. -/
def reachesCommandMatch (env : Env) (st : CoreState) (request : SignedCommandRequest)
    (payloadBytes : String) : Bool :=
  match validatePayloadBasic request.payload with
  | .error _ => false
  | .ok _ =>
  match loadPolicy st with
  | .error _ => false
  | .ok policy =>
  if policy.defaultAction ≠ .deny then false
  else
  match verifyRequestSecurity env request payloadBytes policy with
  | .error _ => false
  | .ok _ =>
  match loadCommandRecord st request.payload.commandId with
  | some _ => false
  | none =>
  if policy.security.requireNonce then
    match reserveNonce env st.nonces request.payload.nonce policy.security.nonceTtlSeconds with
    | (.ok _, _) => true
    | (.error _, _) => false
  else true

theorem executeMatched_spec (env : Env) (st₁ : CoreState) (request : SignedCommandRequest)
    (policy : PrivExecPolicy) (r : ExecResult)
    (hr : executeMatched env st₁ request policy = r) :
    r.persist = true ∧ r.state.commands = st₁.commands ∧
      r.response.commandId = request.payload.commandId := by
  unfold executeMatched at hr
  repeat' (split at hr)
  all_goals (cases hr; try simp [errorResponse, executeCommand_commands])
  all_goals (split <;> simp [errorResponse, executeCommand_commands])

theorem executeLocked_branches (env : Env) (st : CoreState) (request : SignedCommandRequest)
    (payloadBytes requestHash : String) (r : ExecResult)
    (hr : executeLocked env st request payloadBytes requestHash = r) :
    r.persist = reachesCommandMatch env st request payloadBytes ∧
    r.state.commands = st.commands ∧
    (r.persist = true → r.response.commandId = request.payload.commandId) := by
  unfold executeLocked at hr
  unfold reachesCommandMatch
  cases hb : validatePayloadBasic request.payload with
  | error c => rw [hb] at hr; cases hr; simp
  | ok u =>
  cases u
  rw [hb] at hr
  cases hp : loadPolicy st with
  | error c => rw [hp] at hr; cases hr; simp
  | ok policy =>
  rw [hp] at hr
  by_cases hd : policy.defaultAction = PolicyDefaultAction.deny
  case neg => simp only [if_pos (by simpa using hd)] at hr; cases hr; simp [hd]
  case pos =>
  simp only [hd, ne_eq, not_true_eq_false, if_false] at hr ⊢
  cases hs : verifyRequestSecurity env request payloadBytes policy with
  | error c => rw [hs] at hr; cases hr; simp
  | ok u =>
  cases u
  rw [hs] at hr
  cases hrec : loadCommandRecord st request.payload.commandId with
  | some existing =>
      rw [hrec] at hr
      by_cases hh : existing.requestHash = requestHash
      · simp only [if_pos hh] at hr; cases hr; simp
      · simp only [if_neg hh] at hr; cases hr; simp
  | none =>
  rw [hrec] at hr
  by_cases hnb : policy.security.requireNonce = true
  case neg =>
    simp only [Bool.not_eq_true] at hnb
    simp only [hnb, Bool.false_eq_true, if_false] at hr ⊢
    obtain ⟨h₁, h₂, h₃⟩ := executeMatched_spec env _ request policy r hr
    exact ⟨h₁, by simpa using h₂, fun _ => h₃⟩
  case pos =>
    simp only [hnb, if_true] at hr ⊢
    cases hn : reserveNonce env st.nonces request.payload.nonce
        policy.security.nonceTtlSeconds with
    | mk res nonces₁ =>
    rw [hn] at hr
    cases res with
    | error c => cases hr; simp
    | ok u =>
    cases u
    obtain ⟨h₁, h₂, h₃⟩ := executeMatched_spec env _ request policy r hr
    exact ⟨h₁, by simpa using h₂, fun _ => h₃⟩

/-- C3: a command record keyed by the payload's commandId is persisted
exactly when the terminal outcome arises at or after the policy-match
step: POLICY_DENY from a failed match, COMMAND_DISABLED,
SESSION_REQUIRED, parameter-validation errors, session-touch errors,
handler errors and successes all set the persist flag, while schema,
policy-load, default-action, signature, device-binding, freshness,
idempotent replays, COMMAND_ID_CONFLICT and nonce failures do not.
execute_request inserts the record into the command store exactly when
the flag is set and leaves the store untouched otherwise. -/
theorem C3_persistence_boundary (env : Env) (st : CoreState)
    (request : SignedCommandRequest) (payloadBytes requestHash : String) :
    (executeLocked env st request payloadBytes requestHash).persist =
      reachesCommandMatch env st request payloadBytes ∧
    (executeRequest env st request).state.commands =
      (if reachesCommandMatch env st request request.payload.signingBytes then
        alInsert request.payload.commandId
          ⟨env.hashHex request.payload.signingBytes,
            (executeLocked env st request request.payload.signingBytes
              (env.hashHex request.payload.signingBytes)).response⟩ st.commands
      else st.commands) := by
  obtain ⟨h₁, _, _⟩ := executeLocked_branches env st request payloadBytes requestHash _ rfl
  obtain ⟨g₁, g₂, g₃⟩ := executeLocked_branches env st request request.payload.signingBytes
    (env.hashHex request.payload.signingBytes) _ rfl
  refine ⟨h₁, ?_⟩
  simp only [executeRequest, writeAuditLog, storeCommandRecord]
  by_cases hreach : reachesCommandMatch env st request request.payload.signingBytes = true
  · rw [hreach] at g₁
    rw [if_pos hreach, g₁]
    simp [g₂, g₃ g₁]
  · have hfalse : reachesCommandMatch env st request request.payload.signingBytes = false := by
      simpa using hreach
    rw [hfalse] at g₁
    simp [hfalse, g₁, g₂]

/-! Claim C10: an expired session hit mutates the persisted store. -/

theorem alLookup_filter_key {β : Type} (k : String) (q : (String × β) → Bool)
    (l : List (String × β)) :
    alLookup k (l.filter (fun p => p.1 == k || q p)) = alLookup k l := by
  induction l with
  | nil => rfl
  | cons p t ih =>
      obtain ⟨k₀, v⟩ := p
      by_cases hk : k₀ = k
      · subst hk
        simp [alLookup, List.filter]
      · have hkb : (k₀ == k) = false := by simp [hk]
        cases hq : q (k₀, v) <;>
          simp [alLookup, List.filter, hk, hkb, hq, ih]

theorem alLookup_alRemove {β : Type} (k : String) (l : List (String × β)) :
    alLookup k (alRemove k l) = none := by
  induction l with
  | nil => rfl
  | cons p t ih =>
      obtain ⟨k₀, v⟩ := p
      by_cases hk : k₀ = k
      · have hkb : (k₀ != k) = false := by simp [hk]
        simpa [alRemove, List.filter, hkb] using ih
      · have hkb : (k₀ != k) = true := by simp [hk]
        simpa [alRemove, alLookup, List.filter, hkb, hk] using ih

/-- C10: when touchSession or the heartbeat handler finds the requested
session with a matching deviceId but an expiry at or before now, the
error path mutates persisted state: the record is removed (together
with other expired records) and the store is rewritten before
SESSION_EXPIRED is returned, so an identical second call against the
resulting store answers SESSION_NOT_FOUND rather than SESSION_EXPIRED. -/
theorem C10_expired_session_is_removed (env : Env)
    (sessions : List (String × SessionRecord)) (sessionId : String)
    (record : SessionRecord) (payload : CommandRequestPayload)
    (params : List (String × Json))
    (hlook : alLookup sessionId sessions = some record)
    (hdev : record.deviceId = payload.deviceId)
    (hexp : record.expiresAt ≤ env.now)
    (hparam : getString params "sessionId" = .ok sessionId) :
    (touchSession env sessions sessionId payload.deviceId =
      (.error .sessionExpired,
        alRemove sessionId (sessions.filter
          (fun p => p.1 == sessionId || decide (p.2.expiresAt > env.now))))) ∧
    ((touchSession env (touchSession env sessions sessionId payload.deviceId).2 sessionId
        payload.deviceId).1 = .error .sessionNotFound) ∧
    (execHeartbeat env sessions payload params =
      (.error .sessionExpired,
        alRemove sessionId (sessions.filter
          (fun p => p.1 == sessionId || decide (p.2.expiresAt > env.now))))) ∧
    ((execHeartbeat env (execHeartbeat env sessions payload params).2 payload params).1 =
      .error .sessionNotFound) := by
  have h₁ : touchSession env sessions sessionId payload.deviceId =
      (.error .sessionExpired,
        alRemove sessionId (sessions.filter
          (fun p => p.1 == sessionId || decide (p.2.expiresAt > env.now)))) := by
    simp only [touchSession]
    rw [alLookup_filter_key sessionId _ sessions, hlook]
    simp [hdev, hexp]
  have h₃ : execHeartbeat env sessions payload params =
      (.error .sessionExpired,
        alRemove sessionId (sessions.filter
          (fun p => p.1 == sessionId || decide (p.2.expiresAt > env.now)))) := by
    simp only [execHeartbeat]
    rw [hparam]
    simp only []
    rw [alLookup_filter_key sessionId _ sessions, hlook]
    simp [hdev, hexp]
  refine ⟨h₁, ?_, h₃, ?_⟩
  · rw [h₁]
    simp only [touchSession]
    rw [alLookup_filter_key sessionId _ _, alLookup_alRemove]
  · rw [h₃]
    simp only [execHeartbeat]
    rw [hparam]
    simp only []
    rw [alLookup_filter_key sessionId _ _, alLookup_alRemove]

def c10Env : Env where
  config := { deviceId := "device-1"
              bootstrapPublicKeys := [("k1", "pk")]
              policyReplaceFailAfterBackup := false }
  verifiers := fun _ => none
  runScript := fun _ => some ⟨0, "", ""⟩
  runScriptWithEnv := fun _ _ => some ⟨0, "", ""⟩
  now := 1000
  nowNanos := 0
  hashHex := fun _ => "h1"
  isAbsolutePath := fun _ => true
  canonicalizePath := fun s => some s
  fileBytes := fun _ => none
  utf8Lossy := fun _ => ""
  parseJsonStdout := fun _ => none
  fsFaults := ⟨false, false, false, false, false⟩

def c10Record : SessionRecord where
  deviceId := "device-1"
  issuedAt := 800
  expiresAt := 900
  lastHeartbeatAt := 800
  ttlSeconds := 100

def c10Payload : CommandRequestPayload where
  schemaVersion := 1
  commandId := "cmd-hb"
  nonce := "n-hb"
  issuedAt := 995
  expiresAt := 1060
  deviceId := "device-1"
  command := "heartbeat"
  params := [("sessionId", .str "s1")]

/-- Witness for C10 at a concrete expired session. -/
theorem C10_expired_session_is_removed_witness :
    alLookup "s1" [("s1", c10Record)] = some c10Record ∧
    c10Record.deviceId = c10Payload.deviceId ∧
    c10Record.expiresAt ≤ c10Env.now ∧
    (touchSession c10Env [("s1", c10Record)] "s1" c10Payload.deviceId).1 =
      .error .sessionExpired ∧
    (execHeartbeat c10Env
      (execHeartbeat c10Env [("s1", c10Record)] c10Payload c10Payload.params).2
      c10Payload c10Payload.params).1 = .error .sessionNotFound := by
  obtain ⟨h₁, h₂, h₃, h₄⟩ := C10_expired_session_is_removed c10Env [("s1", c10Record)] "s1"
    c10Record c10Payload c10Payload.params (by decide) (by decide) (by decide) (by decide)
  exact ⟨by decide, by decide, by decide, by rw [h₁], h₄⟩

/-! Claim C4: policy version monotonicity. -/

theorem replacePolicyAtomically_ok (env : Env) (fs : PolicyFs) (doc : PolicyDoc)
    (u : Unit) (fs₁ : PolicyFs)
    (h : replacePolicyAtomically env fs doc = (.ok u, fs₁)) : fs₁.main = some doc := by
  simp only [replacePolicyAtomically] at h
  cases f₁ : env.fsFaults.createDirFails <;>
    cases f₂ : env.fsFaults.writeTmpFails <;>
      cases f₃ : env.fsFaults.renameMainToBakFails <;>
        cases f₄ : env.fsFaults.renameTmpToMainFails <;>
          cases f₅ : env.fsFaults.renameBakToMainFails <;>
            cases f₆ : env.config.policyReplaceFailAfterBackup <;>
              cases hm : fs.main <;>
                simp only [f₁, f₂, f₃, f₄, f₅, f₆, hm, Bool.false_eq_true, Bool.true_eq_false,
                  if_false, if_true, Prod.mk.injEq, if_neg, if_pos] at h <;>
                  (obtain ⟨hu, hfs⟩ := h; first | simp at hu | (subst hfs; simp))

theorem applyPolicyUpdateLocked_ok (env : Env) (st : CoreState)
    (req : SignedPolicyUpdateRequest) (version : Nat) (st' : CoreState)
    (h : applyPolicyUpdateLocked env st req = (.ok version, st')) :
    st'.policyFs.main = some (some req.payload.policy) ∧
    version = req.payload.version ∧
    req.payload.policy.version = req.payload.version := by
  simp only [applyPolicyUpdateLocked] at h
  by_cases h₁ : req.payload.schemaVersion ≠ schemaVersionConst
  · rw [if_pos h₁] at h; simp at h
  rw [if_neg h₁] at h
  by_cases h₂ : req.payload.policy.defaultAction ≠ PolicyDefaultAction.deny
  · rw [if_pos h₂] at h; simp at h
  rw [if_neg h₂] at h
  by_cases h₃ : req.payload.policy.version ≠ req.payload.version
  · rw [if_pos h₃] at h; simp at h
  rw [if_neg h₃] at h
  by_cases h₄ : versionRejected (loadPolicy st).toOption req.payload.version = true
  · simp [h₄] at h
  simp only [Bool.not_eq_true] at h₄
  simp only [h₄, Bool.false_eq_true, if_false] at h
  by_cases h₅ : updateSigningKeys env (loadPolicy st).toOption = []
  · rw [if_pos h₅] at h; simp at h
  rw [if_neg h₅] at h
  cases hv : verifyWithKeys env req.signature req.payload.signingBytes
      (updateSigningKeys env (loadPolicy st).toOption) none
      .policyUpdateInvalidSignature with
  | error c => rw [hv] at h; simp at h
  | ok u =>
  cases u
  rw [hv] at h
  cases hrep : replacePolicyAtomically env st.policyFs (some req.payload.policy) with
  | mk r fs₁ =>
  rw [hrep] at h
  cases r with
  | error rb => simp at h
  | ok u =>
  cases u
  simp only [Prod.mk.injEq, Except.ok.injEq] at h
  obtain ⟨hver, hst⟩ := h
  subst hst
  refine ⟨?_, hver.symm, not_ne_iff.mp h₃⟩
  simpa using replacePolicyAtomically_ok env st.policyFs (some req.payload.policy) _ _ hrep

theorem applyPolicyUpdate_ok (env : Env) (st : CoreState) (req : SignedPolicyUpdateRequest)
    (resp : PolicyUpdateResponse) (st₁ : CoreState)
    (h : applyPolicyUpdate env st req = (resp, st₁)) (hok : resp.ok = true) :
    st₁.policyFs.main = some (some req.payload.policy) ∧
    resp.version = req.payload.version ∧
    req.payload.policy.version = req.payload.version := by
  unfold applyPolicyUpdate at h
  cases hl : applyPolicyUpdateLocked env st req with
  | mk res st' =>
  rw [hl] at h
  cases res with
  | error e =>
      obtain ⟨err, rolledBack⟩ := e
      cases h
      simp at hok
  | ok version =>
      cases h
      obtain ⟨h₁, h₂, h₃⟩ := applyPolicyUpdateLocked_ok env st req version _ hl
      exact ⟨h₁, h₂, h₃⟩

/-- C4 amended: after applyPolicyUpdate succeeds at version v, every
subsequent update that passes the gates preceding the monotonicity
check (schemaVersion = 1, defaultAction = deny, and envelope version
equal to the embedded policy version) and whose envelope version is at
most v is answered POLICY_UPDATE_VERSION_REJECTED.  The restriction to
gate-passing envelopes is forced by the counterexample: a subsequent
update with version at most v but a bad schemaVersion is answered
INVALID_SCHEMA instead. -/
theorem C4_version_monotonicity_amended (env₁ env₂ : Env) (st st₁ : CoreState)
    (req₁ req₂ : SignedPolicyUpdateRequest) (resp₁ : PolicyUpdateResponse)
    (happly : applyPolicyUpdate env₁ st req₁ = (resp₁, st₁))
    (hok : resp₁.ok = true)
    (hschema : req₂.payload.schemaVersion = schemaVersionConst)
    (hdeny : req₂.payload.policy.defaultAction = .deny)
    (hver : req₂.payload.policy.version = req₂.payload.version)
    (hle : req₂.payload.version ≤ resp₁.version) :
    (applyPolicyUpdate env₂ st₁ req₂).1.code = "POLICY_UPDATE_VERSION_REJECTED" := by
  obtain ⟨hmain, hv, hpv⟩ := applyPolicyUpdate_ok env₁ st req₁ resp₁ st₁ happly hok
  have hload : loadPolicy st₁ = .ok req₁.payload.policy := by
    unfold loadPolicy
    rw [hmain]
  have hrej : versionRejected (loadPolicy st₁).toOption req₂.payload.version = true := by
    rw [hload]
    simp only [Except.toOption, versionRejected, decide_eq_true_eq]
    rw [hpv]
    rw [hv] at hle
    exact hle
  unfold applyPolicyUpdate applyPolicyUpdateLocked
  simp [hschema, hdeny, hver, hrej, PrivExecErrorCode.asStr]

def c4Env : Env where
  config := { deviceId := "device-1"
              bootstrapPublicKeys := [("k1", "pk")]
              policyReplaceFailAfterBackup := false }
  verifiers := fun a => if a = "ed25519" then some (fun _ _ _ => true) else none
  runScript := fun _ => some ⟨0, "", ""⟩
  runScriptWithEnv := fun _ _ => some ⟨0, "", ""⟩
  now := 1000
  nowNanos := 0
  hashHex := fun _ => "h1"
  isAbsolutePath := fun _ => true
  canonicalizePath := fun s => some s
  fileBytes := fun _ => none
  utf8Lossy := fun _ => ""
  parseJsonStdout := fun _ => none
  fsFaults := ⟨false, false, false, false, false⟩

def c4Policy2 : PrivExecPolicy where
  schemaVersion := 1
  policyName := "p"
  version := 2
  defaultAction := .deny
  security := PolicySecurity.defaults
  allowedCommands := []

def c4Policy1 : PrivExecPolicy where
  schemaVersion := 1
  policyName := "p"
  version := 1
  defaultAction := .deny
  security := PolicySecurity.defaults
  allowedCommands := []

def c4State : CoreState where
  policyFs := ⟨none, none, none⟩
  nonces := []
  commands := []
  sessions := []
  audit := []

def c4Req1 : SignedPolicyUpdateRequest where
  payload := { schemaVersion := 1, version := 2, issuedAt := 990, policy := c4Policy2 }
  signature := { algorithm := "ed25519", keyId := "k1", signature := "sig" }

def c4Req2 : SignedPolicyUpdateRequest where
  payload := { schemaVersion := 2, version := 1, issuedAt := 990, policy := c4Policy1 }
  signature := { algorithm := "ed25519", keyId := "k1", signature := "sig" }

def c4Req3 : SignedPolicyUpdateRequest where
  payload := { schemaVersion := 1, version := 1, issuedAt := 990, policy := c4Policy1 }
  signature := { algorithm := "ed25519", keyId := "k1", signature := "sig" }

/-- C4 counterexample: after a successful update to version 2, a
subsequent update whose envelope version 1 is at most 2 but whose
schemaVersion fails the schema gate is answered INVALID_SCHEMA, not
POLICY_UPDATE_VERSION_REJECTED, refuting the unconditional claim. -/
theorem C4_counterexample :
    (applyPolicyUpdate c4Env c4State c4Req1).1.ok = true ∧
    (applyPolicyUpdate c4Env c4State c4Req1).1.version = 2 ∧
    c4Req2.payload.version ≤ 2 ∧
    (applyPolicyUpdate c4Env (applyPolicyUpdate c4Env c4State c4Req1).2 c4Req2).1.code =
      "INVALID_SCHEMA" := by decide

/-- Witness for the amended C4 at a concrete gate-passing second
update. -/
theorem C4_version_monotonicity_amended_witness :
    (applyPolicyUpdate c4Env c4State c4Req1).1.ok = true ∧
    c4Req3.payload.version ≤ (applyPolicyUpdate c4Env c4State c4Req1).1.version ∧
    (applyPolicyUpdate c4Env (applyPolicyUpdate c4Env c4State c4Req1).2 c4Req3).1.code =
      "POLICY_UPDATE_VERSION_REJECTED" :=
  ⟨by decide, by decide,
    C4_version_monotonicity_amended c4Env c4Env c4State
      (applyPolicyUpdate c4Env c4State c4Req1).2 c4Req1 c4Req3
      (applyPolicyUpdate c4Env c4State c4Req1).1 rfl (by decide) (by decide) (by decide)
      (by decide) (by decide)⟩

/-! Claim C5: rollback behaviour of the atomic policy replacement. -/

/-- C5 amended: when the update passes every gate before the
replacement, the backup rename has succeeded (no fault before it) and
the swap then fails (fault injection or a failing tmp-to-main rename),
the response is POLICY_UPDATE_ROLLBACK, the tmp file is removed, and
rolledBack reports whether the restore rename succeeded; the on-disk
policy equals the pre-update content exactly when the restore
succeeded, while a failing restore leaves no policy file and the
pre-update content only in the backup.  The restore-failure clause is
the correction forced by the counterexample: the claim asserted the
pre-update bytes unconditionally. -/
theorem C5_rollback_amended (env : Env) (st : CoreState)
    (req : SignedPolicyUpdateRequest) (preDoc : PolicyDoc)
    (hmain : st.policyFs.main = some preDoc)
    (hschema : req.payload.schemaVersion = schemaVersionConst)
    (hdeny : req.payload.policy.defaultAction = .deny)
    (hver : req.payload.policy.version = req.payload.version)
    (hrej : versionRejected (loadPolicy st).toOption req.payload.version = false)
    (hkeys : ¬ updateSigningKeys env (loadPolicy st).toOption = [])
    (hverify : verifyWithKeys env req.signature req.payload.signingBytes
      (updateSigningKeys env (loadPolicy st).toOption) none
      .policyUpdateInvalidSignature = .ok ())
    (hf₁ : env.fsFaults.createDirFails = false)
    (hf₂ : env.fsFaults.writeTmpFails = false)
    (hf₃ : env.fsFaults.renameMainToBakFails = false)
    (hfail : env.config.policyReplaceFailAfterBackup = true ∨
      env.fsFaults.renameTmpToMainFails = true) :
    (applyPolicyUpdate env st req).1.code = "POLICY_UPDATE_ROLLBACK" ∧
    (applyPolicyUpdate env st req).1.rolledBack = !env.fsFaults.renameBakToMainFails ∧
    (applyPolicyUpdate env st req).2.policyFs.tmp = none ∧
    (env.fsFaults.renameBakToMainFails = false →
      (applyPolicyUpdate env st req).2.policyFs.main = some preDoc ∧
      (applyPolicyUpdate env st req).2.policyFs.bak = none) ∧
    (env.fsFaults.renameBakToMainFails = true →
      (applyPolicyUpdate env st req).2.policyFs.main = none ∧
      (applyPolicyUpdate env st req).2.policyFs.bak = some preDoc) := by
  have hrep : replacePolicyAtomically env st.policyFs (some req.payload.policy) =
      (.error (!env.fsFaults.renameBakToMainFails),
        if env.fsFaults.renameBakToMainFails then
          { main := none, tmp := none, bak := some preDoc }
        else { main := some preDoc, tmp := none, bak := none }) := by
    simp only [replacePolicyAtomically, hf₁, hf₂, hf₃, hmain, Bool.false_eq_true, if_false]
    cases hf₆ : env.config.policyReplaceFailAfterBackup <;>
      cases hf₄ : env.fsFaults.renameTmpToMainFails <;>
        cases hf₅ : env.fsFaults.renameBakToMainFails <;>
          simp_all
  unfold applyPolicyUpdate applyPolicyUpdateLocked
  simp only [hschema, hdeny, hver, hrej, hkeys, hverify, hrep, schemaVersionConst,
    Bool.false_eq_true, if_false, ne_eq, not_true_eq_false, not_false_eq_true, if_neg,
    if_true]
  cases hf₅ : env.fsFaults.renameBakToMainFails <;>
    simp_all [PrivExecErrorCode.asStr, PrivExecErrorCode.message]

def c5Env : Env where
  config := { deviceId := "device-1"
              bootstrapPublicKeys := [("k1", "pk")]
              policyReplaceFailAfterBackup := true }
  verifiers := fun a => if a = "ed25519" then some (fun _ _ _ => true) else none
  runScript := fun _ => some ⟨0, "", ""⟩
  runScriptWithEnv := fun _ _ => some ⟨0, "", ""⟩
  now := 1000
  nowNanos := 0
  hashHex := fun _ => "h1"
  isAbsolutePath := fun _ => true
  canonicalizePath := fun s => some s
  fileBytes := fun _ => none
  utf8Lossy := fun _ => ""
  parseJsonStdout := fun _ => none
  fsFaults := ⟨false, false, false, false, true⟩

def c5Policy1 : PrivExecPolicy where
  schemaVersion := 1
  policyName := "p"
  version := 1
  defaultAction := .deny
  security := PolicySecurity.defaults
  allowedCommands := []

def c5Policy2 : PrivExecPolicy where
  schemaVersion := 1
  policyName := "p"
  version := 2
  defaultAction := .deny
  security := PolicySecurity.defaults
  allowedCommands := []

def c5State : CoreState where
  policyFs := ⟨some (some c5Policy1), none, none⟩
  nonces := []
  commands := []
  sessions := []
  audit := []

def c5Req : SignedPolicyUpdateRequest where
  payload := { schemaVersion := 1, version := 2, issuedAt := 990, policy := c5Policy2 }
  signature := { algorithm := "ed25519", keyId := "k1", signature := "sig" }

/-- C5 counterexample: with the fault flag set and a restore rename
that also fails, the response is POLICY_UPDATE_ROLLBACK with rolledBack
false and the canonical policy file does not equal the pre-update
content (it is gone; the content survives only in the backup), refuting
the claim's unconditional pre-update-bytes conjunct. -/
theorem C5_counterexample :
    c5State.policyFs.main = some (some c5Policy1) ∧
    (applyPolicyUpdate c5Env c5State c5Req).1.code = "POLICY_UPDATE_ROLLBACK" ∧
    (applyPolicyUpdate c5Env c5State c5Req).1.rolledBack = false ∧
    (applyPolicyUpdate c5Env c5State c5Req).2.policyFs.main = none ∧
    (applyPolicyUpdate c5Env c5State c5Req).2.policyFs.bak = some (some c5Policy1) := by
  decide

def c5wEnv : Env where
  config := { deviceId := "device-1"
              bootstrapPublicKeys := [("k1", "pk")]
              policyReplaceFailAfterBackup := true }
  verifiers := fun a => if a = "ed25519" then some (fun _ _ _ => true) else none
  runScript := fun _ => some ⟨0, "", ""⟩
  runScriptWithEnv := fun _ _ => some ⟨0, "", ""⟩
  now := 1000
  nowNanos := 0
  hashHex := fun _ => "h1"
  isAbsolutePath := fun _ => true
  canonicalizePath := fun s => some s
  fileBytes := fun _ => none
  utf8Lossy := fun _ => ""
  parseJsonStdout := fun _ => none
  fsFaults := ⟨false, false, false, false, false⟩

/-- Witness for the amended C5 in the fault-injection test path with no
other fault: rolledBack is true and the pre-update policy is back in
place. -/
theorem C5_rollback_amended_witness :
    (applyPolicyUpdate c5wEnv c5State c5Req).1.code = "POLICY_UPDATE_ROLLBACK" ∧
    (applyPolicyUpdate c5wEnv c5State c5Req).1.rolledBack = true ∧
    (applyPolicyUpdate c5wEnv c5State c5Req).2.policyFs.tmp = none ∧
    (applyPolicyUpdate c5wEnv c5State c5Req).2.policyFs.main = some (some c5Policy1) := by
  obtain ⟨h₁, h₂, h₃, h₄, h₅⟩ := C5_rollback_amended c5wEnv c5State c5Req (some c5Policy1)
    (by decide) (by decide) (by decide) (by decide) (by decide) (by decide) (by decide)
    (by decide) (by decide) (by decide) (Or.inl (by decide))
  exact ⟨h₁, by simpa using h₂, h₃, (h₄ (by decide)).1⟩

/-! Claim C9: a corrupt policy file behaves as an absent policy for
updates. -/

/-- C9: when policy.json exists but does not parse, applyPolicyUpdate
treats the situation as having no current policy: the effective signing
keys are the bootstrap keys (not the unreadable policy's publicKeys),
the version-monotonicity gate is skipped, and a bootstrap-signed update
of any version, including one not larger than the corrupt file's old
version, succeeds and replaces the file. -/
theorem C9_corrupt_policy_treated_as_absent (env : Env) (st : CoreState)
    (req : SignedPolicyUpdateRequest)
    (hcorrupt : st.policyFs.main = some none)
    (hschema : req.payload.schemaVersion = schemaVersionConst)
    (hdeny : req.payload.policy.defaultAction = .deny)
    (hver : req.payload.policy.version = req.payload.version)
    (hkeys : ¬ env.config.bootstrapPublicKeys = [])
    (hverify : verifyWithKeys env req.signature req.payload.signingBytes
      env.config.bootstrapPublicKeys none .policyUpdateInvalidSignature = .ok ())
    (hf : env.fsFaults = ⟨false, false, false, false, false⟩)
    (hflag : env.config.policyReplaceFailAfterBackup = false) :
    updateSigningKeys env (loadPolicy st).toOption = env.config.bootstrapPublicKeys ∧
    versionRejected (loadPolicy st).toOption req.payload.version = false ∧
    (applyPolicyUpdate env st req).1.ok = true ∧
    (applyPolicyUpdate env st req).1.version = req.payload.version ∧
    (applyPolicyUpdate env st req).2.policyFs.main = some (some req.payload.policy) := by
  have hload : loadPolicy st = .error .policyInvalid := by
    unfold loadPolicy
    rw [hcorrupt]
  have hopt : (loadPolicy st).toOption = none := by rw [hload]; rfl
  have hkeys2 : updateSigningKeys env (loadPolicy st).toOption =
      env.config.bootstrapPublicKeys := by rw [hopt]; rfl
  have hrej : versionRejected (loadPolicy st).toOption req.payload.version = false := by
    rw [hopt]; rfl
  have hrep : replacePolicyAtomically env st.policyFs (some req.payload.policy) =
      (.ok (), { main := some (some req.payload.policy), tmp := none, bak := none }) := by
    simp [replacePolicyAtomically, hf, hflag, hcorrupt]
  refine ⟨hkeys2, hrej, ?_⟩
  unfold applyPolicyUpdate applyPolicyUpdateLocked
  simp [hschema, hdeny, hver, hrej, hkeys2, hkeys, hverify, hrep,
    PrivExecErrorCode.asStr, PrivExecErrorCode.message]

def c9State : CoreState where
  policyFs := ⟨some none, none, none⟩
  nonces := []
  commands := []
  sessions := []
  audit := []

def c9Policy : PrivExecPolicy where
  schemaVersion := 1
  policyName := "p"
  version := 1
  defaultAction := .deny
  security := PolicySecurity.defaults
  allowedCommands := []

def c9Req : SignedPolicyUpdateRequest where
  payload := { schemaVersion := 1, version := 1, issuedAt := 990, policy := c9Policy }
  signature := { algorithm := "ed25519", keyId := "k1", signature := "sig" }

/-- Witness for C9: a corrupt policy file is replaced by a
bootstrap-signed update of version 1. -/
theorem C9_corrupt_policy_treated_as_absent_witness :
    c9State.policyFs.main = some none ∧
    (applyPolicyUpdate c4Env c9State c9Req).1.ok = true ∧
    (applyPolicyUpdate c4Env c9State c9Req).2.policyFs.main = some (some c9Policy) := by
  obtain ⟨h₁, h₂, h₃, h₄, h₅⟩ := C9_corrupt_policy_treated_as_absent c4Env c9State c9Req
    (by decide) (by decide) (by decide) (by decide) (by decide) (by decide) (by decide)
    (by decide)
  exact ⟨by decide, h₃, h₅⟩

/-! Claim C7: the hard-coded restart_service guard. -/

theorem eqIgnoreAsciiCase_trans {a b c : String}
    (h₁ : eqIgnoreAsciiCase a b = true) (h₂ : eqIgnoreAsciiCase b c = true) :
    eqIgnoreAsciiCase a c = true := by
  simp only [eqIgnoreAsciiCase, beq_iff_eq] at h₁ h₂ ⊢
  rw [h₁, h₂]

theorem executeMatched_restart (env : Env) (st₁ : CoreState)
    (request : SignedCommandRequest) (policy : PrivExecPolicy)
    (h : eqIgnoreAsciiCase request.payload.command "restart_service" = true) :
    (executeMatched env st₁ request policy).calls = [] ∧
    (∀ cp, policy.allowedCommands.find?
        (fun c => eqIgnoreAsciiCase c.name request.payload.command) = some cp →
      (executeMatched env st₁ request policy).response.code = "COMMAND_DISABLED") := by
  unfold executeMatched
  cases hf : policy.allowedCommands.find?
      (fun c => eqIgnoreAsciiCase c.name request.payload.command) with
  | none =>
      refine ⟨rfl, ?_⟩
      intro cp hcp
      simp at hcp
  | some cp =>
      have hcp' := List.find?_some hf
      have hcr : eqIgnoreAsciiCase cp.name "restart_service" = true :=
        eqIgnoreAsciiCase_trans (by simpa using hcp') h
      refine ⟨?_, ?_⟩
      · simp [hcr]
      · intro cp₂ hcp₂
        simp [hcr, errorResponse, PrivExecErrorCode.asStr]

theorem executeLocked_restart_no_calls (env : Env) (st : CoreState)
    (request : SignedCommandRequest) (payloadBytes requestHash : String)
    (h : eqIgnoreAsciiCase request.payload.command "restart_service" = true) :
    (executeLocked env st request payloadBytes requestHash).calls = [] := by
  simp only [executeLocked]
  repeat' split
  all_goals first
    | rfl
    | simp
    | exact (executeMatched_restart env _ request _ h).1

/-- C7 amended: a request whose payload command equals restart_service
case-insensitively never puts a script through the CommandRunner, and
provided the request reaches the command-match step and the loaded
policy lists restart_service (with any enabled value, including true),
the response code is COMMAND_DISABLED and the outcome is persisted.
The counterexample forces the listing precondition: when the policy
does not list restart_service the pipeline answers POLICY_DENY at the
match step instead. -/
theorem C7_restart_service_always_disabled (env : Env) (st : CoreState)
    (request : SignedCommandRequest) (payloadBytes requestHash : String)
    (policy : PrivExecPolicy) (cp : PolicyCommand)
    (hcmd : eqIgnoreAsciiCase request.payload.command "restart_service" = true)
    (hbasic : validatePayloadBasic request.payload = .ok ())
    (hpolicy : loadPolicy st = .ok policy)
    (hdeny : policy.defaultAction = .deny)
    (hsec : verifyRequestSecurity env request payloadBytes policy = .ok ())
    (hrec : loadCommandRecord st request.payload.commandId = none)
    (hnonce : (if policy.security.requireNonce then
        reserveNonce env st.nonces request.payload.nonce policy.security.nonceTtlSeconds
      else (.ok (), st.nonces)).1 = .ok ())
    (hfind : policy.allowedCommands.find?
      (fun c => eqIgnoreAsciiCase c.name request.payload.command) = some cp) :
    (executeLocked env st request payloadBytes requestHash).response.code =
      "COMMAND_DISABLED" ∧
    (executeLocked env st request payloadBytes requestHash).persist = true ∧
    (∀ (env₂ : Env) (st₂ : CoreState) (req₂ : SignedCommandRequest) (pb rh : String),
      eqIgnoreAsciiCase req₂.payload.command "restart_service" = true →
      (executeLocked env₂ st₂ req₂ pb rh).calls = []) := by
  have hmain : executeLocked env st request payloadBytes requestHash =
      executeMatched env
        { st with nonces := (if policy.security.requireNonce then
            reserveNonce env st.nonces request.payload.nonce policy.security.nonceTtlSeconds
          else (.ok (), st.nonces)).2 } request policy := by
    unfold executeLocked
    rw [hbasic, hpolicy]
    cases hn : (if policy.security.requireNonce then
        reserveNonce env st.nonces request.payload.nonce policy.security.nonceTtlSeconds
      else (.ok (), st.nonces)) with
    | mk res nonces₁ =>
    rw [hn] at hnonce
    have hres : res = Except.ok () := hnonce
    subst hres
    simp [hdeny, hsec, hrec, hn]
  rw [hmain]
  refine ⟨(executeMatched_restart env _ request policy hcmd).2 cp hfind, ?_, ?_⟩
  · exact (executeMatched_spec env _ request policy _ rfl).1
  · intro env₂ st₂ req₂ pb rh h₂
    exact executeLocked_restart_no_calls env₂ st₂ req₂ pb rh h₂

def c7Env : Env where
  config := { deviceId := "device-1"
              bootstrapPublicKeys := [("k1", "pk")]
              policyReplaceFailAfterBackup := false }
  verifiers := fun a => if a = "ed25519" then some (fun _ _ _ => true) else none
  runScript := fun _ => some ⟨0, "", ""⟩
  runScriptWithEnv := fun _ _ => some ⟨0, "", ""⟩
  now := 1000
  nowNanos := 0
  hashHex := fun _ => "h1"
  isAbsolutePath := fun _ => true
  canonicalizePath := fun s => some s
  fileBytes := fun _ => none
  utf8Lossy := fun _ => ""
  parseJsonStdout := fun _ => none
  fsFaults := ⟨false, false, false, false, false⟩

def c7PolicyListed : PrivExecPolicy where
  schemaVersion := 1
  policyName := "p"
  version := 1
  defaultAction := .deny
  security := { requireSignature := true
                signatureAlgorithm := "ed25519"
                requireDeviceBinding := true
                requireNonce := true
                nonceTtlSeconds := 120
                maxClockSkewSeconds := 30
                sessionTtlSeconds := 120
                publicKeys := [("k1", "pk")] }
  allowedCommands :=
    [{ name := "restart_service", enabled := true, requiresSession := false,
       riskLevel := some "high", params := [] }]

def c7PolicyUnlisted : PrivExecPolicy where
  schemaVersion := 1
  policyName := "p"
  version := 1
  defaultAction := .deny
  security := { requireSignature := true
                signatureAlgorithm := "ed25519"
                requireDeviceBinding := true
                requireNonce := true
                nonceTtlSeconds := 120
                maxClockSkewSeconds := 30
                sessionTtlSeconds := 120
                publicKeys := [("k1", "pk")] }
  allowedCommands :=
    [{ name := "query_disk", enabled := true, requiresSession := false,
       riskLevel := none, params := [] }]

def c7StateListed : CoreState where
  policyFs := ⟨some (some c7PolicyListed), none, none⟩
  nonces := []
  commands := []
  sessions := []
  audit := []

def c7StateUnlisted : CoreState where
  policyFs := ⟨some (some c7PolicyUnlisted), none, none⟩
  nonces := []
  commands := []
  sessions := []
  audit := []

def c7Req : SignedCommandRequest where
  payload := { schemaVersion := 1
               commandId := "cmd-7"
               nonce := "n-7"
               issuedAt := 995
               expiresAt := 1060
               deviceId := "device-1"
               command := "Restart_Service"
               params := [] }
  signature := { algorithm := "ed25519", keyId := "k1", signature := "sig" }

/-- C7 counterexample: a request for restart_service that passes every
earlier check against a policy that does not list restart_service is
answered POLICY_DENY, not COMMAND_DISABLED, refuting the claim's
unconditional response clause. -/
theorem C7_counterexample :
    eqIgnoreAsciiCase c7Req.payload.command "restart_service" = true ∧
    (executeRequest c7Env c7StateUnlisted c7Req).response.code = "POLICY_DENY" ∧
    (executeRequest c7Env c7StateUnlisted c7Req).calls = [] := by decide

/-- Witness for the amended C7: restart_service listed with enabled =
true is still answered COMMAND_DISABLED, the outcome is persisted, and
no script reaches the runner. -/
theorem C7_restart_service_always_disabled_witness :
    c7PolicyListed.allowedCommands.find?
      (fun c => eqIgnoreAsciiCase c.name c7Req.payload.command) =
        some { name := "restart_service", enabled := true, requiresSession := false,
               riskLevel := some "high", params := [] } ∧
    (executeLocked c7Env c7StateListed c7Req c7Req.payload.signingBytes "h1").response.code =
      "COMMAND_DISABLED" ∧
    (executeLocked c7Env c7StateListed c7Req c7Req.payload.signingBytes "h1").persist = true ∧
    (executeLocked c7Env c7StateListed c7Req c7Req.payload.signingBytes "h1").calls = [] :=
  have h := C7_restart_service_always_disabled c7Env c7StateListed c7Req
    c7Req.payload.signingBytes "h1" c7PolicyListed
    { name := "restart_service", enabled := true, requiresSession := false,
      riskLevel := some "high", params := [] }
    (by decide) (by decide) (by decide) (by decide) (by decide) (by decide) (by decide)
    (by decide)
  ⟨by decide, h.1, h.2.1, h.2.2 c7Env c7StateListed c7Req c7Req.payload.signingBytes "h1"
    (by decide)⟩

/-! Claim C8: the unlock_bitlocker secret channel. -/

/-- Substring occurrence on character lists. -/
def occursIn (needle : List Char) : List Char → Bool
  | [] => needle.isEmpty
  | c :: rest => needle.isPrefixOf (c :: rest) || occursIn needle rest

theorem option_filter_some {α : Type} {p : α → Bool} {o : Option α} {a : α}
    (h : Option.filter p o = some a) : o = some a ∧ p a = true := by
  cases o with
  | none => simp [Option.filter] at h
  | some b =>
      by_cases hp : p b = true
      · simp [Option.filter, hp] at h
        subst h
        exact ⟨rfl, hp⟩
      · simp [Option.filter, hp] at h

theorem option_filter_none_match {α : Type} {p : α → Bool} {o : Option α}
    (h : Option.filter p o = none) :
    (match o with | some v => p v | none => false) = false := by
  cases o with
  | none => rfl
  | some b =>
      by_cases hp : p b = true
      · simp [Option.filter, hp] at h
      · simpa using hp

/-- C8 amended: for a dispatched unlock_bitlocker invocation with a
mountPoint, exactly one of recoveryPassword or password must be
supplied non-blank: when both or neither are, the handler returns
INVALID_PARAMETER without invoking the runner; otherwise the runner is
invoked through the environment-carrying entry point with the secret in
the environment map under CONFIGARC_UNLOCK_SECRET, and the composed
script is unlockBitlockerScript applied to the mount point, the skip
flag and the credential kind only, hence independent of the secret
value.  Independence replaces the claim's never-a-substring clause,
which the counterexample refutes for secrets that collide with the
fixed script text. -/
theorem C8_unlock_secret_via_env (env : Env) (params : List (String × Json))
    (mountPoint : String)
    (hmp : getString params "mountPoint" = .ok mountPoint) :
    ((Option.filter (fun v => !(isBlank v))
        ((alLookup "recoveryPassword" params).bind jsonAsStr)).isSome =
      (Option.filter (fun v => !(isBlank v))
        ((alLookup "password" params).bind jsonAsStr)).isSome →
      execUnlockBitlocker env params = (.error .invalidParameter, [])) ∧
    (∀ r, Option.filter (fun v => !(isBlank v))
        ((alLookup "recoveryPassword" params).bind jsonAsStr) = some r →
      Option.filter (fun v => !(isBlank v))
        ((alLookup "password" params).bind jsonAsStr) = none →
      execUnlockBitlocker env params =
        runPowershellJsonWithEnv env
          (unlockBitlockerScript mountPoint (exceptD (getBool params "skipIfUnlocked") true)
            true)
          [(unlockSecretEnvKey, r)]) ∧
    (∀ p, Option.filter (fun v => !(isBlank v))
        ((alLookup "recoveryPassword" params).bind jsonAsStr) = none →
      Option.filter (fun v => !(isBlank v))
        ((alLookup "password" params).bind jsonAsStr) = some p →
      execUnlockBitlocker env params =
        runPowershellJsonWithEnv env
          (unlockBitlockerScript mountPoint (exceptD (getBool params "skipIfUnlocked") true)
            false)
          [(unlockSecretEnvKey, p)]) := by
  refine ⟨?_, ?_, ?_⟩
  · intro h
    unfold execUnlockBitlocker
    rw [hmp]
    simp [h]
  · intro r hrp hpw
    obtain ⟨hraw, hblank⟩ := option_filter_some hrp
    have hb : isBlank r = false := by simpa using hblank
    unfold execUnlockBitlocker
    rw [hmp]
    cases hpo : (alLookup "password" params).bind jsonAsStr with
    | none => simp [hraw, hb, hpo, Option.filter]
    | some w =>
        rw [hpo] at hpw
        have hwb : isBlank w = true := by
          by_cases hwb : isBlank w = true
          · exact hwb
          · simp [Option.filter, hwb] at hpw
        simp [hraw, hb, hpo, hwb, Option.filter]
  · intro p hrp hpw
    unfold execUnlockBitlocker
    rw [hmp]
    cases hro : (alLookup "recoveryPassword" params).bind jsonAsStr with
    | none => simp [hro, hrp, hpw]
    | some v =>
        rw [hro] at hrp
        have hvb : isBlank v = true := by
          by_cases hvb : isBlank v = true
          · exact hvb
          · simp [Option.filter, hvb] at hrp
        simp [hro, hrp, hpw, hvb]

def c8Env : Env where
  config := { deviceId := "device-1"
              bootstrapPublicKeys := [("k1", "pk")]
              policyReplaceFailAfterBackup := false }
  verifiers := fun a => if a = "ed25519" then some (fun _ _ _ => true) else none
  runScript := fun _ => some ⟨0, "", ""⟩
  runScriptWithEnv := fun _ _ => some ⟨0, "", ""⟩
  now := 1000
  nowNanos := 0
  hashHex := fun _ => "h1"
  isAbsolutePath := fun _ => true
  canonicalizePath := fun s => some s
  fileBytes := fun _ => none
  utf8Lossy := fun _ => ""
  parseJsonStdout := fun _ => none
  fsFaults := ⟨false, false, false, false, false⟩

def c8Params : List (String × Json) :=
  [("mountPoint", .str "C:"), ("password", .str "BitLocker")]

set_option maxRecDepth 20000 in
/-- C8 counterexample: a password whose text collides with the fixed
script (here the word BitLocker) is handed to the runner through the
environment map, yet it does appear as a substring of the composed
script string, refuting the claim's never-a-substring clause. -/
theorem C8_counterexample :
    (execUnlockBitlocker c8Env c8Params).2 =
      [⟨unlockBitlockerScript "C:" true false,
        [("CONFIGARC_UNLOCK_SECRET", "BitLocker")], true⟩] ∧
    occursIn "BitLocker".data (unlockBitlockerScript "C:" true false).data = true := by
  decide

def c8wParams : List (String × Json) :=
  [("mountPoint", .str "X:"), ("recoveryPassword", .str "111111-222222")]

set_option maxRecDepth 20000 in
/-- Witness for the amended C8 with a concrete recovery password. -/
theorem C8_unlock_secret_via_env_witness :
    getString c8wParams "mountPoint" = .ok "X:" ∧
    Option.filter (fun v => !(isBlank v))
      ((alLookup "recoveryPassword" c8wParams).bind jsonAsStr) = some "111111-222222" ∧
    execUnlockBitlocker c8Env c8wParams =
      runPowershellJsonWithEnv c8Env (unlockBitlockerScript "X:" true true)
        [(unlockSecretEnvKey, "111111-222222")] :=
  ⟨by decide, by decide,
    (C8_unlock_secret_via_env c8Env c8wParams "X:" (by decide)).2.1 "111111-222222"
      (by decide) (by decide)⟩

/-! C6: fixedValue handling in validate_params.  The error codes the
validator can produce, and the exact fixedValue substitution and
mismatch behaviour of the per-rule loop. -/

theorem resolveStringParam_ne_deny (name : String) (params : List (String × Json))
    (required : Bool) (default : Option String) (c : PrivExecErrorCode)
    (h : resolveStringParam name params required default = .error c) :
    c ≠ .policyDeny := by
  unfold resolveStringParam at h
  repeat' split at h
  all_goals cases h
  all_goals decide

theorem resolveBoolParam_ne_deny (name : String) (params : List (String × Json))
    (required : Bool) (default : Option Bool) (c : PrivExecErrorCode)
    (h : resolveBoolParam name params required default = .error c) :
    c ≠ .policyDeny := by
  unfold resolveBoolParam at h
  repeat' split at h
  all_goals cases h
  all_goals decide

theorem resolveIntParam_ne_deny (name : String) (params : List (String × Json))
    (required : Bool) (default : Option Int) (c : PrivExecErrorCode)
    (h : resolveIntParam name params required default = .error c) :
    c ≠ .policyDeny := by
  unfold resolveIntParam at h
  repeat' split at h
  all_goals cases h
  all_goals decide

theorem canonicalizeSecurePath_ne_deny (env : Env) (path : String)
    (c : PrivExecErrorCode) (h : canonicalizeSecurePath env path = .error c) :
    c ≠ .policyDeny := by
  unfold canonicalizeSecurePath at h
  repeat' split at h
  all_goals cases h
  all_goals decide

theorem checkExtensions_ne_deny (canonical : String) (allowExtensions : List String)
    (c : PrivExecErrorCode) (h : checkExtensions canonical allowExtensions = .error c) :
    c ≠ .policyDeny := by
  simp only [checkExtensions] at h
  repeat' split at h
  all_goals cases h
  all_goals decide

theorem checkRoots_ne_deny (env : Env) (canonical : String) :
    ∀ (roots : List String) (c : PrivExecErrorCode),
      checkRoots env canonical roots = .error c → c ≠ .policyDeny := by
  intro roots
  induction roots with
  | nil => intro c h; simp [checkRoots] at h
  | cons root rest ih =>
      intro c h
      simp only [checkRoots, bind, Except.bind] at h
      cases hc : canonicalizeSecurePath env root with
      | error e =>
          simp only [hc] at h
          injection h with h2
          subst h2
          exact canonicalizeSecurePath_ne_deny env root _ hc
      | ok croot =>
          simp only [hc] at h
          split at h
          · cases h
          · exact ih c h

theorem applyRule_ne_deny (env : Env) (name : String) (rule : ParamRule)
    (params : List (String × Json)) (c : PrivExecErrorCode)
    (h : applyRule env name rule params = .error c) : c ≠ .policyDeny := by
  cases rule with
  | string required default allowValues fixedValue =>
      simp only [applyRule, bind, Except.bind] at h
      cases hres : resolveStringParam name params required default with
      | error e =>
          simp only [hres] at h
          injection h with h2
          subst h2
          exact resolveStringParam_ne_deny name params required default _ hres
      | ok s =>
          simp only [hres] at h
          repeat' split at h
          all_goals cases h
          all_goals decide
  | bool required default fixedValue =>
      simp only [applyRule, bind, Except.bind] at h
      cases hres : resolveBoolParam name params required default with
      | error e =>
          simp only [hres] at h
          injection h with h2
          subst h2
          exact resolveBoolParam_ne_deny name params required default _ hres
      | ok b =>
          simp only [hres] at h
          repeat' split at h
          all_goals cases h
          all_goals decide
  | int required default minVal maxVal fixedValue =>
      simp only [applyRule, bind, Except.bind] at h
      cases hres : resolveIntParam name params required default with
      | error e =>
          simp only [hres] at h
          injection h with h2
          subst h2
          exact resolveIntParam_ne_deny name params required default _ hres
      | ok n =>
          simp only [hres] at h
          repeat' split at h
          all_goals cases h
          all_goals decide
  | path required default allowRoots allowExtensions fixedValue =>
      simp only [applyRule, bind, Except.bind] at h
      cases hres : resolveStringParam name params required default with
      | error e =>
          simp only [hres] at h
          injection h with h2
          subst h2
          exact resolveStringParam_ne_deny name params required default _ hres
      | ok s =>
          simp only [hres] at h
          repeat' split at h
          all_goals cases h
          all_goals
            first
              | decide
              | solve_by_elim [canonicalizeSecurePath_ne_deny, checkExtensions_ne_deny,
                  checkRoots_ne_deny]

theorem validateParamsGo_ne_deny (env : Env) (params : List (String × Json)) :
    ∀ (rules : List (String × ParamRule)) (acc : List (String × Json))
      (c : PrivExecErrorCode),
      validateParamsGo env params rules acc = .error c → c ≠ .policyDeny := by
  intro rules
  induction rules with
  | nil => intro acc c h; simp [validateParamsGo] at h
  | cons pr rest ih =>
      obtain ⟨name, rule⟩ := pr
      intro acc c h
      simp only [validateParamsGo] at h
      cases ha : applyRule env name rule params with
      | error e =>
          simp only [ha] at h
          injection h with h2
          subst h2
          exact applyRule_ne_deny env name rule params _ ha
      | ok o =>
          cases o with
          | none =>
              simp only [ha] at h
              exact ih acc c h
          | some kv =>
              simp only [ha] at h
              exact ih (acc ++ [kv]) c h

theorem alContains_eq_false {β : Type} (k : String) (l : List (String × β))
    (h : alContains k l = false) : alLookup k l = none := by
  cases hl : alLookup k l with
  | none => rfl
  | some v => simp [alContains, hl] at h

/-- C6: amended fixedValue behaviour of parameter validation.  (1)
validate_params never fails with POLICY_DENY.  (2) A present bool must
equal the fixedValue: equality emits the value, anything else is
INVALID_PARAMETER.  (3) An absent bool whose resolution succeeds (the
rule is optional or has a default) gets the fixedValue substituted —
overriding any default — and emitted, including for optional rules
with no default.  (4) A present int differing from the fixedValue is
INVALID_PARAMETER whatever the min/max bounds, and (5) with no bounds
a present int must equal the fixedValue exactly as for bools.  (6) An
absent int with no bounds behaves like the absent bool.  (7) A string
supplied as the empty string is silently replaced by the fixedValue
and accepted, while (8) a present non-empty string differing from the
fixedValue is INVALID_PARAMETER.  (9) An absent string resolves its
default first: a non-empty default differing from the fixedValue is
INVALID_PARAMETER with no substitution or emission, whereas (10) an
optional absent string with no default resolves to the empty string,
so the fixedValue is substituted and emitted.  (11) A present
non-empty path value differing from the fixedValue is
INVALID_PARAMETER.  (12) An absent optional path with no default but a
fixedValue is never silently skipped. -/
theorem C6_fixed_value_amended (env : Env) (name : String)
    (params : List (String × Json)) :
    (∀ (cp : PolicyCommand) (c : PrivExecErrorCode),
        validateParams env cp params = .error c → c ≠ .policyDeny) ∧
    (∀ (required : Bool) (default : Option Bool) (b fv : Bool),
        alLookup name params = some (.bool b) →
        applyRule env name (.bool required default (some fv)) params =
          (if b = fv then .ok (some (name, Json.bool fv))
           else .error .invalidParameter)) ∧
    (∀ (required : Bool) (default : Option Bool) (fv : Bool),
        alContains name params = false →
        (required = true → ¬ default = none) →
        applyRule env name (.bool required default (some fv)) params =
          .ok (some (name, Json.bool fv))) ∧
    (∀ (required : Bool) (default minVal maxVal : Option Int) (n fv : Int),
        alLookup name params = some (.num n) → ¬ n = fv →
        applyRule env name (.int required default minVal maxVal (some fv)) params =
          .error .invalidParameter) ∧
    (∀ (required : Bool) (default : Option Int) (n fv : Int),
        alLookup name params = some (.num n) →
        applyRule env name (.int required default none none (some fv)) params =
          (if n = fv then .ok (some (name, Json.num fv))
           else .error .invalidParameter)) ∧
    (∀ (required : Bool) (default : Option Int) (fv : Int),
        alContains name params = false →
        (required = true → ¬ default = none) →
        applyRule env name (.int required default none none (some fv)) params =
          .ok (some (name, Json.num fv))) ∧
    (∀ (required : Bool) (default : Option String) (fv : String),
        alLookup name params = some (.str "") → ¬ fv = "" →
        applyRule env name (.string required default [] (some fv)) params =
          .ok (some (name, Json.str fv))) ∧
    (∀ (required : Bool) (default : Option String) (allowValues : List String)
        (s fv : String),
        alLookup name params = some (.str s) → ¬ s = "" → ¬ s = fv →
        applyRule env name (.string required default allowValues (some fv)) params =
          .error .invalidParameter) ∧
    (∀ (required : Bool) (allowValues : List String) (d fv : String),
        alLookup name params = none → ¬ d = "" → ¬ d = fv →
        applyRule env name (.string required (some d) allowValues (some fv)) params =
          .error .invalidParameter) ∧
    (∀ fv : String, alLookup name params = none → ¬ fv = "" →
        applyRule env name (.string false none [] (some fv)) params =
          .ok (some (name, Json.str fv))) ∧
    (∀ (required : Bool) (default : Option String)
        (allowRoots allowExtensions : List String) (s fv : String),
        alLookup name params = some (.str s) → ¬ s = "" → ¬ s = fv →
        applyRule env name (.path required default allowRoots allowExtensions
          (some fv)) params = .error .invalidParameter) ∧
    (∀ (fv : String) (allowRoots allowExtensions : List String),
        alLookup name params = none →
        ¬ applyRule env name (.path false none allowRoots allowExtensions
          (some fv)) params = .ok none) := by
  refine ⟨?_, ?_, ?_, ?_, ?_, ?_, ?_, ?_, ?_, ?_, ?_, ?_⟩
  · intro cp c h
    unfold validateParams at h
    split at h
    · injection h with h2
      subst h2
      decide
    · exact validateParamsGo_ne_deny env params cp.params [] c h
  · intro required default b fv hlook
    by_cases hb : b = fv <;>
      simp [applyRule, bind, Except.bind, resolveBoolParam, alContains, hlook,
        fixedMismatch, hb]
  · intro required default fv habs hreq
    have hlook := alContains_eq_false name params habs
    cases default with
    | some d =>
        simp [applyRule, bind, Except.bind, resolveBoolParam, alContains, hlook,
          fixedMismatch]
    | none =>
        cases required with
        | true => exact absurd rfl (hreq rfl)
        | false =>
            simp [applyRule, bind, Except.bind, resolveBoolParam, alContains, hlook,
              fixedMismatch]
  · intro required default minVal maxVal n fv hlook hne
    simp [applyRule, bind, Except.bind, resolveIntParam, alContains, hlook,
      fixedMismatch, hne]
  · intro required default n fv hlook
    by_cases hn : n = fv <;>
      simp [applyRule, bind, Except.bind, resolveIntParam, alContains, hlook,
        fixedMismatch, hn]
  · intro required default fv habs hreq
    have hlook := alContains_eq_false name params habs
    cases default with
    | some d =>
        simp [applyRule, bind, Except.bind, resolveIntParam, alContains, hlook,
          fixedMismatch]
    | none =>
        cases required with
        | true => exact absurd rfl (hreq rfl)
        | false =>
            simp [applyRule, bind, Except.bind, resolveIntParam, alContains, hlook,
              fixedMismatch]
  · intro required default fv hlook hfv
    simp [applyRule, bind, Except.bind, resolveStringParam, hlook, fixedMismatch, hfv]
  · intro required default allowValues s fv hlook hs hne
    simp [applyRule, bind, Except.bind, resolveStringParam, hlook, fixedMismatch,
      hs, hne]
  · intro required allowValues d fv hlook hd hne
    simp [applyRule, bind, Except.bind, resolveStringParam, hlook, fixedMismatch,
      hd, hne]
  · intro fv hlook hfv
    simp [applyRule, bind, Except.bind, resolveStringParam, hlook, fixedMismatch, hfv]
  · intro required default allowRoots allowExtensions s fv hlook hs hne
    simp [applyRule, bind, Except.bind, resolveStringParam, hlook, fixedMismatch,
      hs, hne]
  · intro fv allowRoots allowExtensions hlook h
    simp [applyRule, bind, Except.bind, resolveStringParam, hlook, fixedMismatch] at h
    repeat' split at h
    all_goals simp_all

def c6Env : Env where
  config := { deviceId := "device-1"
              bootstrapPublicKeys := [("k1", "pk")]
              policyReplaceFailAfterBackup := false }
  verifiers := fun a => if a = "ed25519" then some (fun _ _ _ => true) else none
  runScript := fun _ => some ⟨0, "", ""⟩
  runScriptWithEnv := fun _ _ => some ⟨0, "", ""⟩
  now := 1000
  nowNanos := 0
  hashHex := fun _ => "h1"
  isAbsolutePath := fun _ => true
  canonicalizePath := fun s => some s
  fileBytes := fun _ => none
  utf8Lossy := fun _ => ""
  parseJsonStdout := fun _ => none
  fsFaults := ⟨false, false, false, false, false⟩

def c6Cmd : PolicyCommand where
  name := "set_flag"
  enabled := true
  requiresSession := false
  riskLevel := none
  params := [("flag", ParamRule.bool false none (some true))]

/-- C6 counterexample: a bool rule that is optional, has no default,
but carries fixedValue true.  The parameter is absent from the request,
yet validate_params emits ("flag", true) into the validated map,
refuting the claim that an optional absent parameter with no default
emits no key. -/
theorem C6_counterexample :
    alContains "flag" ([] : List (String × Json)) = false ∧
    validateParams c6Env c6Cmd [] = .ok [("flag", Json.bool true)] := by
  decide

/-- Witness for the amended C6: a present int that differs from the
fixedValue is rejected as INVALID_PARAMETER. -/
theorem C6_fixed_value_amended_witness :
    alLookup "count" [("count", Json.num 3)] = some (Json.num 3) ∧
    applyRule c6Env "count" (ParamRule.int false none none none (some 5))
      [("count", Json.num 3)] = .error .invalidParameter :=
  ⟨by decide,
    (C6_fixed_value_amended c6Env "count" [("count", Json.num 3)]).2.2.2.1
      false none none none 3 5 (by decide) (by decide)⟩

end ConfigArc
